import Mathlib

/-!
Shallow embedding of the cosmic panel core: the configuration model
(cosmic-panel-config/src/panel_config.rs), the instance orchestrator decision
(cosmic-panel-bin/src/space_container/space_container.rs), the visibility
state machine (cosmic-panel-bin/src/space/panel_space.rs), and the two layout
passes (cosmic-panel-bin/src/space/layout.rs and
panel_space.rs update_window_locations). Machine integers are modelled as
Nat/Int, f32/f64 arithmetic as exact rationals with Rust cast semantics made
explicit at each cast site, and time in whole milliseconds. Side effects on
excluded collaborators (wl_region arithmetic, surface commits, the minimize
channel) are reduced to the data they carry where a claim needs them and
dropped otherwise.
-/

namespace CosmicPanel

/-- Rust float-to-integer conversion truncates toward zero; on exact
rationals this is floor for nonnegative values and negated floor of the
negation otherwise. -/
def ratTrunc (q : ℚ) : ℤ := if 0 ≤ q then ⌊q⌋ else -⌊-q⌋

/-- f64::round rounds half away from zero. -/
def ratRound (q : ℚ) : ℤ := if 0 ≤ q then ⌊q + 1/2⌋ else -⌊-q + 1/2⌋

/-- Saturation applied by a Rust float-to-i32 `as` cast. -/
def i32Sat (z : ℤ) : ℤ := max (-(2^31)) (min (2^31 - 1) z)

/-- Rust `as i32` on a float value: truncate toward zero, then saturate. -/
def ratToI32 (q : ℚ) : ℤ := i32Sat (ratTrunc q)

/-- Rust `as u32` on a float value: truncate, saturate into 0..2^32. -/
def ratToU32 (q : ℚ) : ℤ := max 0 (min (2^32 - 1) (ratTrunc q))

/-- smithay Point/Size to_i32_round: f64::round on each component, then cast. -/
def ratToI32Round (q : ℚ) : ℤ := i32Sat (ratRound q)

/-- Rust i32 division truncates toward zero. -/
def i32Div (a b : ℤ) : ℤ := Int.tdiv a b

/-- Rust `as u32` on an i32 value: two-complement wrap into 0..2^32. -/
def u32Wrap (z : ℤ) : ℤ := z % (2^32)

/-- Rust `as i32` on a u32 value in 0..2^32: two-complement reinterpretation. -/
def u32ToI32 (z : ℤ) : ℤ := if z < 2^31 then z else z - 2^32

/-- char::to_lowercase as it acts on the ASCII names used by panel configs. -/
def charLower (c : Char) : Char :=
  if 'A' ≤ c ∧ c ≤ 'Z' then Char.ofNat (c.toNat + 32) else c

/-- Substring containment on character lists (str::contains). -/
def listHasInfix (p l : List Char) : Bool :=
  (List.range (l.length + 1)).any fun i => decide ((l.drop i).take p.length = p)

/-- name.to_lowercase().contains("panel") from get_priority. -/
def nameHasPanel (s : String) : Bool :=
  listHasInfix ("panel".data) (s.data.map charLower)

/-- PanelAnchor: edge to which the panel is anchored. -/
inductive PanelAnchor
  | Left
  | Right
  | Top
  | Bottom
deriving DecidableEq

/-- The opposite edge of an anchor (the match inside update_space). -/
def PanelAnchor.opposite : PanelAnchor → PanelAnchor
  | .Top => .Bottom
  | .Bottom => .Top
  | .Left => .Right
  | .Right => .Left

/-- PanelSize: the five discrete size classes. -/
inductive PanelSize
  | XS
  | S
  | M
  | L
  | XL
deriving DecidableEq

/-- CosmicPanelBackground; the RGB components of Color are modelled as exact
rationals in place of f32. -/
inductive CosmicPanelBackground
  | ThemeDefault
  | Dark
  | Light
  | Color (c : ℚ × ℚ × ℚ)
deriving DecidableEq

/-- AutoHide parameters; times are in milliseconds. -/
structure AutoHide where
  wait_time : ℕ
  transition_time : ℕ
  handle_size : ℕ
deriving DecidableEq

/-- CosmicPanelOuput: output targeting of a panel config. -/
inductive CosmicPanelOuput
  | All
  | Active
  | Name (n : String)
deriving DecidableEq

/-- CosmicPanelConfig. The layer and keyboard_interactivity fields are
wire-protocol plumbing of excluded collaborators read by no embedded
operation and are omitted; opacity is an exact rational in place of f32. -/
structure CosmicPanelConfig where
  name : String
  anchor : PanelAnchor
  anchor_gap : Bool
  size : PanelSize
  output : CosmicPanelOuput
  background : CosmicPanelBackground
  plugins_wings : Option (List String × List String)
  plugins_center : Option (List String)
  expand_to_edges : Bool
  padding : ℕ
  spacing : ℕ
  border_radius : ℕ
  exclusive_zone : Bool
  autohide : Option AutoHide
  margin : ℕ
  opacity : ℚ
deriving DecidableEq

namespace CosmicPanelConfig

/-- get_priority: additive score used to order recreation. -/
def get_priority (c : CosmicPanelConfig) : ℕ :=
  let p : ℕ := if c.expand_to_edges then 1000 else 0
  let p := if c.margin = 0 then p + 200 else p
  let p := if !c.anchor_gap then p + 100 else p
  if nameHasPanel c.name then p + 10 else p

/-- get_margin. -/
def get_margin (c : CosmicPanelConfig) : ℕ := c.margin

/-- get_effective_anchor_gap: the margin when anchor_gap is set, else 0. -/
def get_effective_anchor_gap (c : CosmicPanelConfig) : ℕ :=
  if c.anchor_gap then c.margin else 0

/-- get_hide_wait in milliseconds. -/
def get_hide_wait (c : CosmicPanelConfig) : Option ℕ :=
  c.autohide.map fun a => a.wait_time

/-- get_hide_transition in milliseconds. -/
def get_hide_transition (c : CosmicPanelConfig) : Option ℕ :=
  c.autohide.map fun a => a.transition_time

/-- get_hide_handle. -/
def get_hide_handle (c : CosmicPanelConfig) : Option ℕ :=
  c.autohide.map fun a => a.handle_size

/-- expand_to_edges accessor. -/
def expand_to_edges_acc (c : CosmicPanelConfig) : Bool := c.expand_to_edges

/-- plugins_left accessor: the left wing only when expanded to edges. -/
def plugins_left (c : CosmicPanelConfig) : Option (List String) :=
  if c.expand_to_edges then c.plugins_wings.map (fun w => w.1) else none

/-- plugins_right accessor: the right wing only when expanded to edges. -/
def plugins_right (c : CosmicPanelConfig) : Option (List String) :=
  if c.expand_to_edges then c.plugins_wings.map (fun w => w.2) else none

/-- plugins_center accessor: in dock mode the wings are folded into the
center list. -/
def plugins_center_acc (c : CosmicPanelConfig) : Option (List String) :=
  if c.expand_to_edges ∨ c.plugins_wings = none then
    c.plugins_center
  else
    match c.plugins_center with
    | some pc =>
      some (((c.plugins_wings.getD ([], [])).1 ++ pc) ++ (c.plugins_wings.getD ([], [])).2)
    | none =>
      some ((c.plugins_wings.getD ([], [])).1 ++ (c.plugins_wings.getD ([], [])).2)

/-- is_horizontal: Top and Bottom anchors are horizontal. -/
def is_horizontal (c : CosmicPanelConfig) : Bool :=
  match c.anchor with
  | .Top | .Bottom => true
  | _ => false

/-- get_dimensions: thickness range from the size class (with 2*padding
subtracted from its end), and a degenerate one-value range on the length
axis from the suggested length or the output dimensions. -/
def get_dimensions (c : CosmicPanelConfig)
    (output_dims : Option (ℕ × ℕ)) (suggested_length : Option ℕ) :
    Option (ℕ × ℕ) × Option (ℕ × ℕ) :=
  let e : ℕ := match c.size with
    | .XS => 61
    | .S => 81
    | .M => 101
    | .L => 121
    | .XL => 141
  let bar : ℕ × ℕ := (8, e - 2 * c.padding)
  let o_h := suggested_length.getD (output_dims.getD (0, 0)).2
  let o_w := suggested_length.getD (output_dims.getD (0, 0)).1
  match c.anchor with
  | .Left | .Right => (some bar, some (o_h, o_h + 1))
  | .Top | .Bottom => (some (o_w, o_w + 1), some bar)

end CosmicPanelConfig

/-! Orchestrator decision (SpaceContainer::update_space). -/

/-- The opposite_anchor binding in update_space: Some of the opposite of the
new anchor whenever the anchor changed at all, None otherwise. -/
def oppositeAnchor (oldAnchor newAnchor : PanelAnchor) : Option PanelAnchor :=
  if oldAnchor = newAnchor then none else some newAnchor.opposite

/-- output_count_mismatch in update_space, over the configs of the live
spaces whose name matches and the number of known outputs. -/
def outputCountMismatch (spaceConfigs : List CosmicPanelConfig) (outputsLen : ℕ)
    (entry : CosmicPanelConfig) : Bool :=
  match entry.output with
  | .All =>
    decide ((spaceConfigs.filter fun s => s.name == entry.name).length ≠ outputsLen)
  | .Name _ =>
    decide ((spaceConfigs.filter fun s => s.name == entry.name).length ≠ 1)
  | _ => true

/-- The (old_priority, old_anchor) pair looked up in the container config
list, defaulting to (0, entry.anchor). -/
def oldPriorityAnchor (configList : List CosmicPanelConfig)
    (entry : CosmicPanelConfig) : ℕ × PanelAnchor :=
  ((configList.find? fun c => c.name == entry.name).map
    fun c => (c.get_priority, c.anchor)).getD (0, entry.anchor)

/-- must_recreate in update_space: the decision between an in-place update
and destroy-and-recreate. -/
def mustRecreate (spaceConfigs : List CosmicPanelConfig) (outputsLen : ℕ)
    (configList : List CosmicPanelConfig) (entry : CosmicPanelConfig) : Bool :=
  let ocm := outputCountMismatch spaceConfigs outputsLen entry
  let oppA := oppositeAnchor (oldPriorityAnchor configList entry).2 entry.anchor
  ocm || configList.any fun c =>
    (c.name == entry.name && decide (c.size ≠ entry.size))
    || (decide (entry.output ≠ .All) && (c.name == entry.name &&
        decide (c.output ≠ entry.output)))
    || oppA.isSome
    || (c.name == entry.name &&
        (decide (c.is_horizontal ≠ entry.is_horizontal)
         || decide (c.size ≠ entry.size)
         || decide (c.background ≠ entry.background)
         || decide (c.plugins_center ≠ entry.plugins_center)
         || decide (c.plugins_wings ≠ entry.plugins_wings)))

/-- Recreation conditions exactly as the specification words them, relative
to the old config of the same name: size class change, a specific (non-All)
output change, the anchor flipping to its opposite edge, or a change of
orientation, background, or either plugin list. -/
def specRecreateConds (c entry : CosmicPanelConfig) : Bool :=
  decide (c.size ≠ entry.size)
  || (decide (entry.output ≠ .All) && decide (c.output ≠ entry.output))
  || decide (entry.anchor = c.anchor.opposite)
  || decide (c.is_horizontal ≠ entry.is_horizontal)
  || decide (c.background ≠ entry.background)
  || decide (c.plugins_center ≠ entry.plugins_center)
  || decide (c.plugins_wings ≠ entry.plugins_wings)

/-- The decision rule as the specification words it: output count mismatch,
or any recreation condition against the existing config of the same name. -/
def specMustRecreate (spaceConfigs : List CosmicPanelConfig) (outputsLen : ℕ)
    (configList : List CosmicPanelConfig) (entry : CosmicPanelConfig) : Bool :=
  outputCountMismatch spaceConfigs outputsLen entry
  || (match configList.find? fun c => c.name == entry.name with
      | some c => specRecreateConds c entry
      | none => false)

/-! Recreation ordering (the per-output loop of update_space). -/

/-- Strictly-between test on priorities from the is_recreated condition. -/
def strictlyBetween (p oldP newP : ℕ) : Bool :=
  (decide (p < newP) && decide (p > oldP)) || (decide (p > newP) && decide (p < oldP))

/-- configs.sort_by(|a, b| b.get_priority().cmp(&a.get_priority())): stable
descending sort by priority. -/
def sortByPriorityDesc (configs : List CosmicPanelConfig) : List CosmicPanelConfig :=
  configs.mergeSort fun a b => b.get_priority ≤ a.get_priority

/-- is_recreated for one config of the per-output list. -/
def isRecreated (entry c : CosmicPanelConfig) (oppA : Option PanelAnchor)
    (oldP newP : ℕ) : Bool :=
  c.name == entry.name
  || (decide (some c.anchor ≠ oppA) && strictlyBetween c.get_priority oldP newP)

/-- The per-output recreation pass: sort the configs of the output by
descending priority, then keep those passing is_recreated. configList is the
container list before the entry was replaced (where old priority and anchor
are looked up); configsForOutput is the config list for the output being
processed. -/
def recreatedConfigs (configList configsForOutput : List CosmicPanelConfig)
    (entry : CosmicPanelConfig) : List CosmicPanelConfig :=
  let newP := entry.get_priority
  let old := oldPriorityAnchor configList entry
  let oppA := oppositeAnchor old.2 entry.anchor
  (sortByPriorityDesc configsForOutput).filter fun c =>
    isRecreated entry c oppA old.1 newP

/-! Visibility state machine (PanelSpace::new and PanelSpace::handle_focus).
Instants and Durations are modelled in whole milliseconds. -/

/-- FocusStatus. Modelled from the spec: the focus/hover signal stream
carries, per surface, Focused or LastFocused with a timestamp. -/
inductive FocusStatus
  | Focused
  | LastFocused (t : ℕ)
deriving DecidableEq

/-- True for the LastFocused variant (the matches! test in handle_focus). -/
def FocusStatus.isLastFocused : FocusStatus → Bool
  | .LastFocused _ => true
  | .Focused => false

/-- Visibility. Modelled from the spec: the four-state visibility machine;
the transition variants carry the instant of the last tick, the accumulated
progress and the previously emitted margin. -/
inductive Visibility
  | Visible
  | Hidden
  | TransitionToVisible (last_instant : ℕ) (progress : ℕ) (prev_margin : ℤ)
  | TransitionToHidden (last_instant : ℕ) (progress : ℕ) (prev_margin : ℤ)
deriving DecidableEq

/-- smootherstep. Modelled from the spec: the easing curve 3t^2 - 2t^3 with
its argument clamped to the unit interval. -/
def smootherstepQ (t : ℚ) : ℚ :=
  let u := min 1 (max 0 t)
  3 * u^2 - 2 * u^3

/-- One entry of a client focus list: a surface id and its focus status. -/
structure FocusEntry where
  surface : ℕ
  status : FocusStatus
deriving DecidableEq

/-- The fold in handle_focus computing the current focus over the chained
focused and hovered lists, keeping only entries whose surface belongs to the
panel (its layer surface or one of its popups). -/
def curFocusFold (belongs : ℕ → Bool) (startInstant : ℕ)
    (entries : List FocusEntry) : FocusStatus :=
  entries.foldl
    (fun acc e =>
      if belongs e.surface then
        match acc, e.status with
        | .LastFocused tAcc, .LastFocused tCur =>
          if tCur > tAcc then e.status else acc
        | .LastFocused _, .Focused => e.status
        | _, _ => acc
      else acc)
    (.LastFocused startInstant)

/-- The slice of PanelSpace state read and written by handle_focus. -/
structure FocusState where
  config : CosmicPanelConfig
  dimensions : ℤ × ℤ
  startInstant : ℕ
  visibility : Visibility
  hasLayer : Bool

/-- A layer-surface commit emitted by handle_focus: an optional exclusive
zone update and the four margins passed to set_margin, in the order
top, right, bottom, left. -/
structure MarginCommit where
  exclusiveZone : Option ℤ
  marginTop : ℤ
  marginRight : ℤ
  marginBottom : ℤ
  marginLeft : ℤ
deriving DecidableEq

/-- Self::set_margin: the target goes to the anchored edge, the configured
margin to the two perpendicular edges, zero to the opposite edge. -/
def setMargin (anchor : PanelAnchor) (margin target : ℤ) (excl : Option ℤ) :
    MarginCommit :=
  match anchor with
  | .Left => ⟨excl, margin, 0, margin, target⟩
  | .Right => ⟨excl, margin, target, margin, 0⟩
  | .Top => ⟨excl, target, margin, 0, margin⟩
  | .Bottom => ⟨excl, 0, margin, target, margin⟩

/-- The margin on the anchored edge of a commit. -/
def MarginCommit.anchored (mc : MarginCommit) : PanelAnchor → ℤ
  | .Left => mc.marginLeft
  | .Right => mc.marginRight
  | .Top => mc.marginTop
  | .Bottom => mc.marginBottom

/-- Result of one handle_focus tick: the new visibility, the commit emitted
to the layer surface if any, and whether close_popups was invoked. -/
structure FocusResult where
  visibility : Visibility
  commit : Option MarginCommit
  closedPopups : Bool
deriving DecidableEq

/-- The panel size used for hide targets: the crosswise dimension plus the
effective anchor gap. -/
def panelSizeWithGap (c : CosmicPanelConfig) (dims : ℤ × ℤ) : ℤ :=
  match c.anchor with
  | .Left | .Right => dims.1 + (c.get_effective_anchor_gap : ℤ)
  | .Top | .Bottom => dims.2 + (c.get_effective_anchor_gap : ℤ)

/-- PanelSpace::handle_focus as a pure tick function. now is the current
instant in milliseconds; belongs tells which surfaces are the panel layer
surface or one of its popups. -/
def handleFocus (st : FocusState) (belongs : ℕ → Bool)
    (cFocused cHovered : List FocusEntry) (now : ℕ) : FocusResult :=
  if !st.hasLayer then ⟨st.visibility, none, false⟩
  else if st.config.autohide = none then
    if (cFocused.all fun e => e.status.isLastFocused) &&
       (cHovered.all fun e => e.status.isLastFocused) then
      ⟨.Hidden, none, false⟩
    else
      ⟨.Visible, none, false⟩
  else
    let curFocus := curFocusFold belongs st.startInstant (cFocused ++ cHovered)
    match st.visibility with
    | .Hidden =>
      match curFocus with
      | .Focused =>
        let margin := (match st.config.anchor with
          | .Left | .Right => -(st.dimensions.1)
          | .Top | .Bottom => -(st.dimensions.2))
          + (st.config.get_hide_handle.getD 0 : ℤ)
        ⟨.TransitionToVisible now 0 margin, none, false⟩
      | _ => ⟨.Hidden, none, false⟩
    | .Visible =>
      match curFocus with
      | .LastFocused t =>
        if now < t then ⟨.Visible, none, false⟩
        else if now - t > st.config.get_hide_wait.getD 0 then
          ⟨.TransitionToHidden now 0 0, none, false⟩
        else ⟨.Visible, none, false⟩
      | _ => ⟨.Visible, none, false⟩
    | .TransitionToHidden lastInstant progress prevMargin =>
      if now < lastInstant then ⟨st.visibility, none, false⟩
      else
        let totalT := st.config.get_hide_transition.getD 0
        let progress2 := progress + (now - lastInstant)
        let progressNorm := smootherstepQ ((progress2 : ℚ) / (totalT : ℚ))
        let handle : ℤ := (st.config.get_hide_handle.getD 0 : ℕ)
        match curFocus with
        | .Focused =>
          ⟨.TransitionToVisible now (totalT - progress2) prevMargin, none, false⟩
        | _ =>
          let panelSize := panelSizeWithGap st.config st.dimensions
          let target := -panelSize + handle
          let curPix := ratToI32 (progressNorm * (target : ℚ))
          let margin : ℤ := st.config.get_margin
          if progress2 > totalT then
            ⟨.Hidden,
             some (setMargin st.config.anchor margin target
               (if st.config.exclusive_zone then some (panelSize + handle) else none)),
             false⟩
          else
            ⟨.TransitionToHidden now progress2 curPix,
             if prevMargin ≠ curPix then
               some (setMargin st.config.anchor margin curPix
                 (if st.config.exclusive_zone then some (panelSize - curPix) else none))
             else none,
             true⟩
    | .TransitionToVisible lastInstant progress prevMargin =>
      if now < lastInstant then ⟨st.visibility, none, false⟩
      else
        let totalT := st.config.get_hide_transition.getD 0
        let progress2 := progress + (now - lastInstant)
        let progressNorm := smootherstepQ ((progress2 : ℚ) / (totalT : ℚ))
        let handle : ℤ := (st.config.get_hide_handle.getD 0 : ℕ)
        match curFocus with
        | .LastFocused _ =>
          ⟨.TransitionToHidden now (totalT - progress2) prevMargin, none, true⟩
        | _ =>
          let panelSize := panelSizeWithGap st.config st.dimensions
          let start := -panelSize + handle
          let curPix := ratToI32 ((1 - progressNorm) * (start : ℚ))
          let margin : ℤ := st.config.get_margin
          if progress2 > totalT then
            ⟨.Visible,
             some (setMargin st.config.anchor margin 0
               (if st.config.exclusive_zone then some panelSize else none)),
             false⟩
          else
            ⟨.TransitionToVisible now progress2 curPix,
             if prevMargin ≠ curPix then
               some (setMargin st.config.anchor margin curPix
                 (if st.config.exclusive_zone then some (panelSize - curPix) else none))
             else none,
             false⟩

/-- Initial visibility chosen by PanelSpace::new. -/
def initialVisibility (c : CosmicPanelConfig) : Visibility :=
  if c.autohide = none then .Visible else .Hidden

/-- Visibility values reachable for a panel instance with a fixed config:
the initial state, closed under handle_focus ticks with arbitrary focus
input, dimensions, layer presence and clock. -/
inductive ReachableVis (c : CosmicPanelConfig) : Visibility → Prop
  | init : ReachableVis c (initialVisibility c)
  | step (v : Visibility) (dims : ℤ × ℤ) (si : ℕ) (hl : Bool)
      (belongs : ℕ → Bool) (cF cH : List FocusEntry) (now : ℕ) :
      ReachableVis c v →
      ReachableVis c (handleFocus ⟨c, dims, si, v, hl⟩ belongs cF cH now).visibility

/-! Layout passes. -/

/-- A logical or physical size (smithay Size over i32). -/
structure Sz where
  w : ℤ
  h : ℤ
deriving DecidableEq

/-- Clamping of one axis against a half-open range, from constrain_dim: below
the start goes to the start, at or above the end goes to end minus one. -/
def clampRange (v : ℕ) (r : ℕ × ℕ) : ℕ :=
  if v < r.1 then r.1 else if v ≥ r.2 then r.2 - 1 else v

/-- PanelSpace::constrain_dim. The i32-to-u32 try_into (which panics on
negative sizes, never hit on real inputs) is modelled with Int.toNat. -/
def constrainDim (c : CosmicPanelConfig) (outputDims : Option (ℕ × ℕ))
    (suggestedLength : Option ℕ) (size : Sz) : Sz :=
  let w0 : ℕ := size.w.toNat
  let h0 : ℕ := size.h.toNat
  let dims := c.get_dimensions outputDims suggestedLength
  let w := match dims.1 with
    | some r => clampRange w0 r
    | none => w0
  let h := match dims.2 with
    | some r => clampRange h0 r
    | none => h0
  ⟨(w : ℤ), (h : ℤ)⟩

/-- An applet window as the layout passes see it: its index within its
region list, its bounding-box size, and the minimize-target flag. -/
structure Win where
  idx : ℕ
  w : ℤ
  h : ℤ
  is_minimize : Bool
deriving DecidableEq

/-- make_indices_contiguous: stable sort by index, then renumber 0..N. The
renumbered index is the first component of each pair. -/
def makeIndicesContiguous (ws : List Win) : List (ℕ × Win) :=
  (ws.mergeSort fun a b => a.idx ≤ b.idx).enum

/-- The lengthwise dimension selected by map_fn: height for vertical-edge
anchors, width for horizontal-edge anchors. -/
def lengthwise (anchor : PanelAnchor) (wn : Win) : ℤ :=
  match anchor with
  | .Left | .Right => wn.h
  | .Top | .Bottom => wn.w

/-- The crosswise dimension selected by map_fn. -/
def crosswise (anchor : PanelAnchor) (wn : Win) : ℤ :=
  match anchor with
  | .Left | .Right => wn.w
  | .Top | .Bottom => wn.h

/-- Iterator max().unwrap_or(0). -/
def listMaxOrZero (l : List ℤ) : ℤ :=
  match l with
  | [] => 0
  | x :: xs => xs.foldl max x

/-- One region sum of PanelSpace::layout: the lengthwise sizes summed as
i32, plus scaled spacing times (count.max(1) - 1) in f64. -/
def regionSumScaled (anchor : PanelAnchor) (spacingScaled : ℚ)
    (ws : List Win) : ℚ :=
  (((ws.map (lengthwise anchor)).sum : ℤ) : ℚ)
    + spacingScaled * (((max ws.length 1 : ℕ) : ℚ) - 1)

/-- center_in_bar: signed difference halved with i32 division. Both call
sites pass u32 values reinterpreted as i32. -/
def centerInBar (crosswiseDim dim : ℤ) : ℤ := i32Div (crosswiseDim - dim) 2

/-- RoundedRectangleSettings produced by PanelSpace::layout; f32 fields are
exact rationals. -/
structure RoundedRectangleSettings where
  rad_tl : ℚ
  rad_tr : ℚ
  rad_bl : ℚ
  rad_br : ℚ
  locX : ℚ
  locY : ℚ
  rectW : ℚ
  rectH : ℚ
deriving DecidableEq

/-- The panel_rect_settings computation of PanelSpace::layout: clamp the
border radius against half the rendered rectangle, round only the corners on
open edges when the panel sits flush on its anchor edge (gap 0). The
border_radius accessor is Modelled from the spec: the configured border
radius of the panel. -/
def computeRectSettings (cfg : CosmicPanelConfig) (gap : ℕ) (actualSize : Sz)
    (containerLength containerLengthwisePos listThickness : ℤ) :
    RoundedRectangleSettings :=
  let border_radius : ℚ := (cfg.border_radius : ℚ)
  let panel_size : Sz :=
    if cfg.is_horizontal then ⟨containerLength, actualSize.h⟩
    else ⟨actualSize.w, containerLength⟩
  let br := min (min border_radius ((panel_size.w : ℚ) / 2)) ((panel_size.h : ℚ) / 2)
  let rads : ℚ × ℚ × ℚ × ℚ := match cfg.anchor, gap with
    | .Right, 0 => (br, 0, br, 0)
    | .Left, 0 => (0, br, 0, br)
    | .Bottom, 0 => (br, br, 0, 0)
    | .Top, 0 => (0, 0, br, br)
    | _, _ => (br, br, br, br)
  let loc : ℚ × ℚ := match cfg.anchor with
    | .Left => ((gap : ℚ), (containerLengthwisePos : ℚ))
    | .Right => (0, (containerLengthwisePos : ℚ))
    | .Top => ((containerLengthwisePos : ℚ), (listThickness : ℚ) - (gap : ℚ))
    | .Bottom => ((containerLengthwisePos : ℚ), (gap : ℚ))
  ⟨rads.1, rads.2.1, rads.2.2.1, rads.2.2.2, loc.1, loc.2,
   (panel_size.w : ℚ), (panel_size.h : ℚ)⟩

/-- Input state slice of PanelSpace::layout. -/
structure LayoutIn where
  config : CosmicPanelConfig
  scale : ℚ
  dimensions : Sz
  actualSize : Sz
  containerLength : ℤ
  suggestedLength : Option ℕ
  outputDims : Option (ℕ × ℕ)
  animateExpanded : Option ℚ
  panelChanged : Bool
  isDirty : Bool
  pendingDimensions : Option Sz
  hasLayerAndRegion : Bool
  winsLeft : List Win
  winsCenter : List Win
  winsRight : List Win

/-- Result of one PanelSpace::layout pass. panicked models the panic on a
missing input region or layer surface; bailed models the
anyhow::bail("resizing list") retry signal. The window placements are the
map_element calls, keyed by renumbered index per region in order
left, center, right. The scaled region sums and the physical list length are
exposed for the statements about them. -/
structure LayoutOut where
  panicked : Bool
  bailed : Bool
  actualSize : Sz
  containerLength : ℤ
  panelChanged : Bool
  rectSettings : Option RoundedRectangleSettings
  pendingDimensions : Option Sz
  isDirty : Bool
  placements : List (ℕ × ℤ × ℤ)
  leftSumScaled : ℚ
  centerSumScaled : ℚ
  rightSumScaled : ℚ
  newListLength : ℤ
deriving DecidableEq

/-- The window-mapping closure of PanelSpace::layout over one region, in
f64: each window is placed at the running position plus spacing times its
renumbered index, centered crosswise; the running position advances by the
lengthwise size. The minimize-channel send is an excluded collaborator and
is not modelled. -/
def mapWindows (anchor : PanelAnchor) (scale : ℚ) (spacing : ℕ)
    (marginOffset newLogicalThickness : ℤ)
    (ws : List (ℕ × Win)) (prev0 : ℚ) : List (ℕ × ℤ × ℤ) × ℚ :=
  ws.foldl
    (fun (acc : List (ℕ × ℤ × ℤ) × ℚ) (p : ℕ × Win) =>
      let prev := acc.2
      let sizeW : ℚ := (p.2.w : ℚ) / scale
      let sizeH : ℚ := (p.2.h : ℚ) / scale
      let cur : ℚ := prev + (spacing : ℚ) * (p.1 : ℚ)
      match anchor with
      | .Left | .Right =>
        let x := marginOffset + centerInBar newLogicalThickness (u32ToI32 (ratToU32 sizeW))
        let y := ratToI32 cur
        (acc.1 ++ [(p.1, x, y)], prev + sizeH)
      | .Top | .Bottom =>
        let x := ratToI32 cur
        let y := marginOffset + centerInBar newLogicalThickness (u32ToI32 (ratToU32 sizeH))
        (acc.1 ++ [(p.1, x, y)], prev + sizeW))
    ([], prev0)

/-- The scaled spacing of the layout pass. -/
def layoutSpacingScaled (li : LayoutIn) : ℚ := (li.config.spacing : ℚ) * li.scale

/-- The scaled padding of the layout pass. -/
def layoutPaddingScaled (li : LayoutIn) : ℚ := (li.config.padding : ℚ) * li.scale

/-- list_thickness: the crosswise component of the current surface
dimensions. -/
def layoutListThickness (li : LayoutIn) : ℤ :=
  match li.config.anchor with
  | .Left | .Right => li.dimensions.w
  | .Top | .Bottom => li.dimensions.h

/-- num_lists of PanelSpace::layout: a configured wings pair counts two, a
configured center list counts one. -/
def layoutNumLists (cfg : CosmicPanelConfig) : ℕ :=
  (if cfg.plugins_wings.isSome then 2 else 0) +
    (if cfg.plugins_center.isSome then 1 else 0)

/-- left_sum_scaled over the contiguously reindexed left windows. -/
def layoutLeftSum (li : LayoutIn) : ℚ :=
  regionSumScaled li.config.anchor (layoutSpacingScaled li)
    ((makeIndicesContiguous li.winsLeft).map Prod.snd)

/-- center_sum_scaled. -/
def layoutCenterSum (li : LayoutIn) : ℚ :=
  regionSumScaled li.config.anchor (layoutSpacingScaled li)
    ((makeIndicesContiguous li.winsCenter).map Prod.snd)

/-- right_sum_scaled. -/
def layoutRightSum (li : LayoutIn) : ℚ :=
  regionSumScaled li.config.anchor (layoutSpacingScaled li)
    ((makeIndicesContiguous li.winsRight).map Prod.snd)

/-- new_list_length: the physical panel length as i32. -/
def layoutNewListLength (li : LayoutIn) : ℤ :=
  ratToI32 ((layoutLeftSum li + layoutCenterSum li + layoutRightSum li)
    + layoutPaddingScaled li * 2
    + layoutSpacingScaled li * ((layoutNumLists li.config : ℚ) - 1))

/-- new_list_thickness: twice the scaled padding plus the largest crosswise
window dimension, as i32. -/
def layoutNewListThickness (li : LayoutIn) : ℤ :=
  ratToI32 (2 * layoutPaddingScaled li + ((listMaxOrZero
    ((((makeIndicesContiguous li.winsLeft ++ makeIndicesContiguous li.winsCenter)
      ++ makeIndicesContiguous li.winsRight).map
        fun p => crosswise li.config.anchor p.2)) : ℤ) : ℚ))

/-- The physical-to-logical conversion of the new actual size. -/
def layoutActualSize0 (li : LayoutIn) : Sz :=
  let actual_phys : ℤ × ℤ :=
    if li.config.is_horizontal then (layoutNewListLength li, layoutNewListThickness li)
    else (layoutNewListThickness li, layoutNewListLength li)
  ⟨ratToI32Round ((actual_phys.1 : ℚ) / li.scale),
   ratToI32Round ((actual_phys.2 : ℚ) / li.scale)⟩

/-- The constrained actual size. -/
def layoutConstrained (li : LayoutIn) : Sz :=
  constrainDim li.config li.outputDims li.suggestedLength (layoutActualSize0 li)

/-- The new self.actual_size: only the thickness axis takes the constrained
value. -/
def layoutActualSize (li : LayoutIn) : Sz :=
  if li.config.is_horizontal then ⟨(layoutActualSize0 li).w, (layoutConstrained li).h⟩
  else ⟨(layoutConstrained li).w, (layoutActualSize0 li).h⟩

/-- new_dim: the constrained size with the anchor gap added on the thickness
axis. -/
def layoutNewDim (li : LayoutIn) : Sz :=
  let gap : ℤ := (li.config.get_effective_anchor_gap : ℤ)
  if li.config.is_horizontal then
    ⟨(layoutConstrained li).w, (layoutConstrained li).h + gap⟩
  else
    ⟨(layoutConstrained li).w + gap, (layoutConstrained li).h⟩

/-- new_list_dim_length: the lengthwise component of new_dim. -/
def layoutDimLength (li : LayoutIn) : ℤ :=
  match li.config.anchor with
  | .Left | .Right => (layoutNewDim li).h
  | .Top | .Bottom => (layoutNewDim li).w

/-- new_list_thickness_dim: the crosswise component of new_dim. -/
def layoutThicknessDim (li : LayoutIn) : ℤ :=
  match li.config.anchor with
  | .Left | .Right => (layoutNewDim li).w
  | .Top | .Bottom => (layoutNewDim li).h

/-- PanelSpace::layout as a pure function of the state slice it reads. The
input-region subtract/add calls mutate an excluded collaborator and are not
modelled; everything else follows the source order, including that the
actual size, rectangle settings and container length are already updated
when the resizing bail fires, while placements are only produced after it. -/
def layoutRun (li : LayoutIn) : LayoutOut :=
  let cfg := li.config
  let gap : ℕ := cfg.get_effective_anchor_gap
  let padding_u32 : ℕ := cfg.padding
  let anchor := cfg.anchor
  let spacing_u32 : ℕ := cfg.spacing
  let list_thickness : ℤ := layoutListThickness li
  let is_dock := !cfg.expand_to_edges
  let windows_left := makeIndicesContiguous li.winsLeft
  let windows_center := makeIndicesContiguous li.winsCenter
  let windows_right := makeIndicesContiguous li.winsRight
  let left_sum_scaled := layoutLeftSum li
  let center_sum_scaled := layoutCenterSum li
  let right_sum_scaled := layoutRightSum li
  let new_list_length : ℤ := layoutNewListLength li
  let old_actual := li.actualSize
  let actualSize : Sz := layoutActualSize li
  let new_logical_length : ℤ := if cfg.is_horizontal then actualSize.w else actualSize.h
  let new_logical_thickness : ℤ := if cfg.is_horizontal then actualSize.h else actualSize.w
  let new_dim : Sz := layoutNewDim li
  if !li.hasLayerAndRegion then
    { panicked := true, bailed := false, actualSize := actualSize,
      containerLength := li.containerLength, panelChanged := li.panelChanged,
      rectSettings := none, pendingDimensions := li.pendingDimensions,
      isDirty := li.isDirty, placements := [],
      leftSumScaled := left_sum_scaled, centerSumScaled := center_sum_scaled,
      rightSumScaled := right_sum_scaled, newListLength := new_list_length }
  else
    let new_list_dim_length := layoutDimLength li
    let new_list_thickness_dim := layoutThicknessDim li
    let panelChanged := li.panelChanged || decide (old_actual ≠ actualSize)
      || decide (new_list_thickness_dim ≠ list_thickness) || li.animateExpanded.isSome
    let left_sum : ℚ := left_sum_scaled / li.scale
    let center_sum : ℚ := center_sum_scaled / li.scale
    let right_sum : ℚ := right_sum_scaled / li.scale
    let container_length : ℤ := match li.animateExpanded with
      | some ex => ratToI32 ((new_logical_length : ℚ)
          + ((new_list_dim_length - new_logical_length : ℤ) : ℚ) * ex)
      | none => if is_dock then new_logical_length else new_list_dim_length
    let container_lengthwise_pos : ℤ := i32Div (new_list_dim_length - container_length) 2
    let rectSettings : Option RoundedRectangleSettings :=
      if panelChanged then
        some (computeRectSettings cfg gap actualSize container_length
          container_lengthwise_pos list_thickness)
      else none
    let requested_eq_length : ℚ := (container_length : ℚ) / 3
    let center_left_spacing : ℚ :=
      if left_sum < requested_eq_length ∧ center_sum < requested_eq_length
         ∧ right_sum < requested_eq_length then
        (requested_eq_length - left_sum - (padding_u32 : ℚ))
          + (requested_eq_length - center_sum) / 2
      else
        ((container_length : ℚ) - left_sum - center_sum - right_sum
          - 2 * (padding_u32 : ℚ)) / 2
    if new_list_thickness_dim ≠ list_thickness then
      { panicked := false, bailed := true, actualSize := actualSize,
        containerLength := container_length, panelChanged := panelChanged,
        rectSettings := rectSettings, pendingDimensions := some new_dim,
        isDirty := true, placements := [],
        leftSumScaled := left_sum_scaled, centerSumScaled := center_sum_scaled,
        rightSumScaled := right_sum_scaled, newListLength := new_list_length }
    else
      let margin_offset : ℤ := match anchor with
        | .Top | .Left => (gap : ℤ)
        | .Bottom | .Right => 0
      let prev0 : ℚ := (container_lengthwise_pos : ℚ) + (padding_u32 : ℚ)
      let pl := mapWindows anchor li.scale spacing_u32 margin_offset
        new_logical_thickness windows_left prev0
      let prev2 : ℚ := pl.2 +
        (if (cfg.plugins_left.map fun l => l.isEmpty).getD true then 0
         else center_left_spacing)
      let pc := mapWindows anchor li.scale spacing_u32 margin_offset
        new_logical_thickness windows_center prev2
      let prevR : ℚ := (container_lengthwise_pos : ℚ) + (container_length : ℚ)
        - (padding_u32 : ℚ) - right_sum
      let pr := mapWindows anchor li.scale spacing_u32 margin_offset
        new_logical_thickness windows_right prevR
      { panicked := false, bailed := false, actualSize := actualSize,
        containerLength := container_length, panelChanged := panelChanged,
        rectSettings := rectSettings, pendingDimensions := li.pendingDimensions,
        isDirty := li.isDirty, placements := (pl.1 ++ pc.1) ++ pr.1,
        leftSumScaled := left_sum_scaled, centerSumScaled := center_sum_scaled,
        rightSumScaled := right_sum_scaled, newListLength := new_list_length }

/-! PanelSpace::update_window_locations, the integer variant of the layout
pass in panel_space.rs. -/

/-- The bbox conversion in update_window_locations:
to_f64().to_physical(1.0).to_logical(scale).to_i32_round() per component. -/
def uwlConvSize (scale : ℚ) (wn : Win) : ℤ × ℤ :=
  (ratToI32Round ((wn.w : ℚ) / scale), ratToI32Round ((wn.h : ℚ) / scale))

/-- The sort_by index ordering of update_window_locations (stable, without
renumbering). -/
def uwlSortWins (ws : List Win) : List Win :=
  ws.mergeSort fun a b => a.idx ≤ b.idx

/-- The lengthwise component of the converted size. -/
def uwlLengthwise (anchor : PanelAnchor) (scale : ℚ) (wn : Win) : ℤ :=
  match anchor with
  | .Left | .Right => (uwlConvSize scale wn).2
  | .Top | .Bottom => (uwlConvSize scale wn).1

/-- The crosswise component of the converted size. -/
def uwlCrosswise (anchor : PanelAnchor) (scale : ℚ) (wn : Win) : ℤ :=
  match anchor with
  | .Left | .Right => (uwlConvSize scale wn).1
  | .Top | .Bottom => (uwlConvSize scale wn).2

/-- One region sum of update_window_locations, in i32 arithmetic. -/
def uwlRegionSum (anchor : PanelAnchor) (scale : ℚ) (spacing : ℕ)
    (ws : List Win) : ℤ :=
  (ws.map (uwlLengthwise anchor scale)).sum
    + (spacing : ℤ) * (((max ws.length 1 : ℕ) : ℤ) - 1)

/-- One placement loop of update_window_locations. Coordinates follow the
u32 running position with two-complement wrap at the sign-crossing casts of
the source. Windows keep their original region index, which also scales the
per-window extra spacing. -/
def uwlPlaceRegion (anchor : PanelAnchor) (scale : ℚ) (spacing : ℕ)
    (marginOffset listThickness : ℤ) (ws : List Win) (prev0 : ℤ) :
    List (ℕ × ℤ × ℤ) × ℤ :=
  ws.foldl
    (fun (acc : List (ℕ × ℤ × ℤ) × ℤ) (wn : Win) =>
      let prev := acc.2
      let conv := uwlConvSize scale wn
      let cur : ℤ := u32Wrap (prev + (spacing : ℤ) * (wn.idx : ℤ))
      match anchor with
      | .Left | .Right =>
        let x := marginOffset + centerInBar listThickness (u32ToI32 (u32Wrap conv.1))
        let y := u32ToI32 cur
        (acc.1 ++ [(wn.idx, x, y)], u32Wrap (prev + conv.2))
      | .Top | .Bottom =>
        let x := u32ToI32 cur
        let y := marginOffset + centerInBar listThickness (u32ToI32 (u32Wrap conv.2))
        (acc.1 ++ [(wn.idx, x, y)], u32Wrap (prev + conv.1)))
    ([], prev0)

/-- Input state slice of update_window_locations. -/
structure UwlIn where
  config : CosmicPanelConfig
  scale : ℚ
  dimensions : Sz
  actualSize : Sz
  suggestedLength : Option ℕ
  outputDims : Option (ℕ × ℕ)
  isDirty : Bool
  pendingDimensions : Option Sz
  hasLayerAndRegion : Bool
  winsLeft : List Win
  winsCenter : List Win
  winsRight : List Win

/-- Result of one update_window_locations pass. errMissing models the bail
on a missing input region or layer; bailed the resizing-list retry signal;
panicked the i32 division by zero when no plugin list is configured. The
corner fields carry the clamped corner radius and the physical panel size of
the rounded-corner buffer when that block runs. -/
structure UwlOut where
  errMissing : Bool
  bailed : Bool
  panicked : Bool
  actualSize : Sz
  pendingDimensions : Option Sz
  isDirty : Bool
  placements : List (ℕ × ℤ × ℤ)
  cornerRadius : Option ℤ
  cornerPanelSize : Option Sz
deriving DecidableEq

/-- The corner radius of the rounded-corner buffer in
update_window_locations: the scaled configured radius as u32, clamped
against half of each side of the physical panel rectangle. -/
def uwlCornerRadius (cfg : CosmicPanelConfig) (scale : ℚ) (panelSize : Sz) : ℤ :=
  let radius0 : ℤ := max 0 (min (2^32 - 1) (ratRound ((cfg.border_radius : ℚ) * scale)))
  min (min radius0 (Int.ediv (u32Wrap panelSize.w) 2)) (Int.ediv (u32Wrap panelSize.h) 2)

/-- The (list_length, list_thickness, actual_length) triple read at the top
of update_window_locations. -/
def uwlListLens (ui : UwlIn) : ℤ × ℤ × ℤ :=
  match ui.config.anchor with
  | .Left | .Right => (ui.dimensions.h, ui.dimensions.w, ui.actualSize.h)
  | .Top | .Bottom => (ui.dimensions.w, ui.dimensions.h, ui.actualSize.w)

/-- num_lists of update_window_locations: unlike the layout pass, a
configured wings pair counts only outside dock mode. -/
def uwlNumLists (ui : UwlIn) : ℕ :=
  (if !(!ui.config.expand_to_edges) && ui.config.plugins_wings.isSome then 2 else 0)
    + (if ui.config.plugins_center.isSome then 1 else 0)

/-- left_sum of update_window_locations. -/
def uwlLeftSum (ui : UwlIn) : ℤ :=
  uwlRegionSum ui.config.anchor ui.scale ui.config.spacing (uwlSortWins ui.winsLeft)

/-- center_sum of update_window_locations. -/
def uwlCenterSum (ui : UwlIn) : ℤ :=
  uwlRegionSum ui.config.anchor ui.scale ui.config.spacing (uwlSortWins ui.winsCenter)

/-- right_sum of update_window_locations. -/
def uwlRightSum (ui : UwlIn) : ℤ :=
  uwlRegionSum ui.config.anchor ui.scale ui.config.spacing (uwlSortWins ui.winsRight)

/-- new_list_length of update_window_locations. -/
def uwlNewListLength (ui : UwlIn) : ℤ :=
  (uwlLeftSum ui + uwlCenterSum ui + uwlRightSum ui)
    + (ui.config.padding : ℤ) * 2 + (ui.config.spacing : ℤ) * ((uwlNumLists ui : ℤ) - 1)

/-- new_list_thickness of update_window_locations. -/
def uwlNewListThickness (ui : UwlIn) : ℤ :=
  2 * (ui.config.padding : ℤ) + listMaxOrZero
    (((uwlSortWins ui.winsLeft ++ uwlSortWins ui.winsCenter) ++ uwlSortWins ui.winsRight).map
      (uwlCrosswise ui.config.anchor ui.scale))

/-- The unconstrained new dimensions of update_window_locations. -/
def uwlNewDim0 (ui : UwlIn) : Sz :=
  match ui.config.anchor with
  | .Left | .Right => ⟨uwlNewListThickness ui, uwlNewListLength ui⟩
  | .Top | .Bottom => ⟨uwlNewListLength ui, uwlNewListThickness ui⟩

/-- The constrained new dimensions of update_window_locations. -/
def uwlNewDim (ui : UwlIn) : Sz :=
  constrainDim ui.config ui.outputDims ui.suggestedLength (uwlNewDim0 ui)

/-- The (length, thickness) components of the constrained new dimensions. -/
def uwlNewLens (ui : UwlIn) : ℤ × ℤ :=
  match ui.config.anchor with
  | .Left | .Right => ((uwlNewDim ui).h, (uwlNewDim ui).w)
  | .Top | .Bottom => ((uwlNewDim ui).w, (uwlNewDim ui).h)

/-- PanelSpace::update_window_locations as a pure function of the state
slice it reads, in source order: sums, the dock input-region update, the
actual-size update, the constrain and resizing bail, then placements and the
rounded-corner buffer. Input-region arithmetic and buffer pixels target
excluded collaborators and are not modelled beyond the data named above. -/
def uwlRun (ui : UwlIn) : UwlOut :=
  let cfg := ui.config
  let padding : ℕ := cfg.padding
  let anchor := cfg.anchor
  let spacing : ℕ := cfg.spacing
  let list_length := (uwlListLens ui).1
  let list_thickness := (uwlListLens ui).2.1
  let actual_length := (uwlListLens ui).2.2
  let is_dock := !cfg.expand_to_edges
  let num_lists : ℕ := uwlNumLists ui
  let windows_left := uwlSortWins ui.winsLeft
  let windows_center := uwlSortWins ui.winsCenter
  let windows_right := uwlSortWins ui.winsRight
  let left_sum := uwlLeftSum ui
  let center_sum := uwlCenterSum ui
  let right_sum := uwlRightSum ui
  let total_sum := left_sum + center_sum + right_sum
  let new_list_length : ℤ := uwlNewListLength ui
  let new_dim0 : Sz := uwlNewDim0 ui
  if actual_length ≠ new_list_length ∧ is_dock ∧ !ui.hasLayerAndRegion then
    { errMissing := true, bailed := false, panicked := false,
      actualSize := ui.actualSize, pendingDimensions := ui.pendingDimensions,
      isDirty := ui.isDirty, placements := [],
      cornerRadius := none, cornerPanelSize := none }
  else
    let actualSize : Sz := new_dim0
    let new_dim := uwlNewDim ui
    let lens : ℤ × ℤ := uwlNewLens ui
    if lens.1 ≠ list_length ∨ lens.2 ≠ list_thickness then
      { errMissing := false, bailed := true, panicked := false,
        actualSize := actualSize, pendingDimensions := some new_dim,
        isDirty := true, placements := [],
        cornerRadius := none, cornerPanelSize := none }
    else if num_lists = 0 then
      { errMissing := false, bailed := false, panicked := true,
        actualSize := actualSize, pendingDimensions := ui.pendingDimensions,
        isDirty := ui.isDirty, placements := [],
        cornerRadius := none, cornerPanelSize := none }
    else
      let requested_eq_length : ℤ := i32Div list_length (num_lists : ℤ)
      let pair : ℤ × ℤ :=
        if is_dock then
          (0, (padding : ℤ) + i32Div (list_length - new_list_length) 2)
        else if num_lists = 1 then
          (0, i32Div (requested_eq_length - center_sum) 2)
        else if left_sum ≤ requested_eq_length ∧ center_sum ≤ requested_eq_length
            ∧ right_sum ≤ requested_eq_length then
          (right_sum,
           requested_eq_length + (padding : ℤ) + i32Div (requested_eq_length - center_sum) 2)
        else
          (right_sum, left_sum + (padding : ℤ) + i32Div (list_length - total_sum) 2)
      let right_sum2 := pair.1
      let center_offset := pair.2
      let margin_offset : ℤ := match anchor with
        | .Top | .Left => (cfg.get_effective_anchor_gap : ℤ)
        | .Bottom | .Right => 0
      let plL := uwlPlaceRegion anchor ui.scale spacing margin_offset list_thickness
        windows_left (padding : ℤ)
      let plC := uwlPlaceRegion anchor ui.scale spacing margin_offset list_thickness
        windows_center (u32Wrap center_offset)
      let plR := uwlPlaceRegion anchor ui.scale spacing margin_offset list_thickness
        windows_right (u32Wrap (list_length - (padding : ℤ) - right_sum2))
      let corner : Option (ℤ × Sz) :=
        if actualSize.w > 0 ∧ actualSize.h > 0 ∧ actual_length > 0
           ∧ (0 < cfg.border_radius ∨ 0 < cfg.get_effective_anchor_gap) then
          let base : Sz := if is_dock then actualSize else ui.dimensions
          let panel_size : Sz :=
            ⟨ratToI32Round ((base.w : ℚ) * ui.scale),
             ratToI32Round ((base.h : ℚ) * ui.scale)⟩
          some (uwlCornerRadius cfg ui.scale panel_size, panel_size)
        else none
      { errMissing := false, bailed := false, panicked := false,
        actualSize := actualSize, pendingDimensions := ui.pendingDimensions,
        isDirty := ui.isDirty, placements := (plL.1 ++ plC.1) ++ plR.1,
        cornerRadius := corner.map fun p => p.1,
        cornerPanelSize := corner.map fun p => p.2 }

/-! Concrete values used by witnesses and counterexamples. -/

/-- A concrete configuration mirroring the Default impl of
CosmicPanelConfig. -/
def cfgBase : CosmicPanelConfig where
  name := ""
  anchor := .Top
  anchor_gap := false
  size := .M
  output := .All
  background := .ThemeDefault
  plugins_wings := none
  plugins_center := none
  expand_to_edges := true
  padding := 4
  spacing := 4
  border_radius := 8
  exclusive_zone := true
  autohide := none
  margin := 4
  opacity := 4/5

/-- The default config with the default autohide parameters switched on. -/
def cfgAuto : CosmicPanelConfig :=
  { cfgBase with autohide := some ⟨1000, 200, 4⟩ }

/-- A concrete dock config with wings and a center list. -/
def cfgDock : CosmicPanelConfig :=
  { cfgBase with
    expand_to_edges := false
    plugins_wings := some (["a"], ["b"])
    plugins_center := some ["c"] }

/-- The default config with a border radius larger than the panel. -/
def cfgBigRadius : CosmicPanelConfig :=
  { cfgBase with border_radius := 1000 }

/-- The default config with its anchor flipped from Top to Bottom. -/
def cfgTopToBottom : CosmicPanelConfig :=
  { cfgBase with anchor := .Bottom }

/-- The default config with only the opacity changed. -/
def cfgOpacityOnly : CosmicPanelConfig :=
  { cfgBase with opacity := 1/2 }

/-- A panel-named config before an update: dock-like, priority 310. -/
def cfgPanelOld : CosmicPanelConfig :=
  { cfgBase with
    name := "panel"
    expand_to_edges := false
    margin := 0 }

/-- The same panel after the update: expanded, anchor flipped to Bottom,
priority 1310. -/
def cfgPanelNew : CosmicPanelConfig :=
  { cfgBase with
    name := "panel"
    anchor := .Bottom
    margin := 0 }

/-- A co-anchored neighbor on the Top edge with priority 1100, strictly
between 310 and 1310. -/
def cfgOther : CosmicPanelConfig :=
  { cfgBase with name := "other" }

/-- The default config with three left-wing plugins and no center list. -/
def cfgWingsOnly : CosmicPanelConfig :=
  { cfgBase with plugins_wings := some (["a", "b", "c"], []) }

/-- The default config with one left-wing plugin and no center list. -/
def cfgWingsOne : CosmicPanelConfig :=
  { cfgBase with plugins_wings := some (["a"], []) }

/-- The layout scenario of the spec: three left-tagged windows of lengthwise
size 40 on a Top anchor at scale 1, padding 4, spacing 4. -/
def liC2 : LayoutIn where
  config := cfgWingsOnly
  scale := 1
  dimensions := ⟨500, 44⟩
  actualSize := ⟨0, 0⟩
  containerLength := 0
  suggestedLength := some 512
  outputDims := none
  animateExpanded := none
  panelChanged := false
  isDirty := false
  pendingDimensions := none
  hasLayerAndRegion := true
  winsLeft := [⟨0, 40, 36, false⟩, ⟨1, 40, 36, false⟩, ⟨2, 40, 36, false⟩]
  winsCenter := []
  winsRight := []

/-- A layout input whose constrained length differs from the current surface
length while the thickness matches: one 40 x 32 left window, surface
dimensions 500 x 40, suggested length 512. -/
def liC6 : LayoutIn where
  config := cfgWingsOne
  scale := 1
  dimensions := ⟨500, 40⟩
  actualSize := ⟨0, 0⟩
  containerLength := 0
  suggestedLength := some 512
  outputDims := none
  animateExpanded := none
  panelChanged := false
  isDirty := false
  pendingDimensions := none
  hasLayerAndRegion := true
  winsLeft := [⟨0, 40, 32, false⟩]
  winsCenter := []
  winsRight := []

/-- The number of nonempty window regions of a layout input. -/
def nonemptyRegions (li : LayoutIn) : ℕ :=
  (if li.winsLeft.isEmpty then 0 else 1)
    + (if li.winsCenter.isEmpty then 0 else 1)
    + (if li.winsRight.isEmpty then 0 else 1)

/-- Total panel length as the specification words it (the refinement side,
following the spec, to be compared with the code's layoutNewListLength): the
three region sums plus twice the padding plus spacing times
(num_nonempty_regions - 1). -/
def specTotalLength (li : LayoutIn) : ℚ :=
  (layoutLeftSum li + layoutCenterSum li + layoutRightSum li)
    + layoutPaddingScaled li * 2
    + layoutSpacingScaled li * ((nonemptyRegions li : ℚ) - 1)

/-- The liC6 input with a thinner current surface, which does force the
resizing bail. -/
def liC6bail : LayoutIn :=
  { liC6 with dimensions := ⟨500, 30⟩ }

/-- An update_window_locations input whose constrained length 512 differs
from the current surface length 500. -/
def uiC6 : UwlIn where
  config := cfgWingsOne
  scale := 1
  dimensions := ⟨500, 40⟩
  actualSize := ⟨0, 0⟩
  suggestedLength := some 512
  outputDims := none
  isDirty := false
  pendingDimensions := none
  hasLayerAndRegion := true
  winsLeft := [⟨0, 40, 32, false⟩]
  winsCenter := []
  winsRight := []

/-! Theorems. -/

theorem min_min_half_le (b w h : ℚ) : min (min b (w / 2)) (h / 2) ≤ min w h / 2 := by
  rcases le_total w h with hwh | hwh
  · rw [min_eq_left hwh]
    exact le_trans (min_le_left _ _) (min_le_right _ _)
  · rw [min_eq_right hwh]
    exact min_le_right _ _

theorem half_min_nonneg {w h : ℚ} (hw : 0 ≤ w) (hh : 0 ≤ h) : (0 : ℚ) ≤ min w h / 2 := by
  have := le_min hw hh
  linarith [min_le_left w h]

/-- C9: for every configured border radius, including values larger than the
panel, every computed corner radius is at most half the smaller side of the
rendered rectangle: the four f32 radii of the layout-pass rectangle
settings, and the u32 radius of the rounded-corner buffer in
update_window_locations. -/
theorem c9_border_radius_le_half_min :
    (∀ (cfg : CosmicPanelConfig) (gap : ℕ) (asz : Sz) (cl clp lt : ℤ),
      0 ≤ (computeRectSettings cfg gap asz cl clp lt).rectW →
      0 ≤ (computeRectSettings cfg gap asz cl clp lt).rectH →
      (computeRectSettings cfg gap asz cl clp lt).rad_tl
        ≤ min (computeRectSettings cfg gap asz cl clp lt).rectW
            (computeRectSettings cfg gap asz cl clp lt).rectH / 2 ∧
      (computeRectSettings cfg gap asz cl clp lt).rad_tr
        ≤ min (computeRectSettings cfg gap asz cl clp lt).rectW
            (computeRectSettings cfg gap asz cl clp lt).rectH / 2 ∧
      (computeRectSettings cfg gap asz cl clp lt).rad_bl
        ≤ min (computeRectSettings cfg gap asz cl clp lt).rectW
            (computeRectSettings cfg gap asz cl clp lt).rectH / 2 ∧
      (computeRectSettings cfg gap asz cl clp lt).rad_br
        ≤ min (computeRectSettings cfg gap asz cl clp lt).rectW
            (computeRectSettings cfg gap asz cl clp lt).rectH / 2) ∧
    (∀ (cfg : CosmicPanelConfig) (scale : ℚ) (ps : Sz),
      0 ≤ ps.w → ps.w < 2^31 → 0 ≤ ps.h → ps.h < 2^31 →
      uwlCornerRadius cfg scale ps ≤ Int.ediv (min ps.w ps.h) 2) := by
  constructor
  · intro cfg gap asz cl clp lt hw hh
    cases hA : cfg.anchor <;> cases gap <;>
      simp only [computeRectSettings, CosmicPanelConfig.is_horizontal, hA] at hw hh ⊢ <;>
      refine ⟨?_, ?_, ?_, ?_⟩ <;>
      first
        | exact min_min_half_le _ _ _
        | exact half_min_nonneg hw hh
  · intro cfg scale ps hw hw2 hh hh2
    have ew : u32Wrap ps.w = ps.w := Int.emod_eq_of_lt hw (by omega)
    have eh : u32Wrap ps.h = ps.h := Int.emod_eq_of_lt hh (by omega)
    unfold uwlCornerRadius
    rw [ew, eh]
    rcases le_total ps.w ps.h with hwh | hwh
    · rw [min_eq_left hwh]
      exact le_trans (min_le_left _ _) (min_le_right _ _)
    · rw [min_eq_right hwh]
      exact min_le_right _ _

/-- C9 witness: the layout-pass bounds at a concrete oversized radius and a
concrete rectangle, and the buffer radius bound at a concrete panel size. -/
theorem c9_border_radius_le_half_min_witness :
    ((0 : ℚ) ≤ (computeRectSettings cfgBigRadius 0 ⟨40, 44⟩ 140 0 44).rectW ∧
     (0 : ℚ) ≤ (computeRectSettings cfgBigRadius 0 ⟨40, 44⟩ 140 0 44).rectH) ∧
    (computeRectSettings cfgBigRadius 0 ⟨40, 44⟩ 140 0 44).rad_bl
      ≤ min (computeRectSettings cfgBigRadius 0 ⟨40, 44⟩ 140 0 44).rectW
          (computeRectSettings cfgBigRadius 0 ⟨40, 44⟩ 140 0 44).rectH / 2 ∧
    uwlCornerRadius cfgBigRadius 1 ⟨140, 44⟩ ≤ Int.ediv (min (140 : ℤ) 44) 2 := by
  have h1 : (0 : ℚ) ≤ (computeRectSettings cfgBigRadius 0 ⟨40, 44⟩ 140 0 44).rectW := by
    norm_num [computeRectSettings, cfgBigRadius, cfgBase, CosmicPanelConfig.is_horizontal]
  have h2 : (0 : ℚ) ≤ (computeRectSettings cfgBigRadius 0 ⟨40, 44⟩ 140 0 44).rectH := by
    norm_num [computeRectSettings, cfgBigRadius, cfgBase, CosmicPanelConfig.is_horizontal]
  refine ⟨⟨h1, h2⟩, ((c9_border_radius_le_half_min.1 _ 0 ⟨40, 44⟩ 140 0 44 h1 h2).2.2.1), ?_⟩
  have h3 := c9_border_radius_le_half_min.2 cfgBigRadius 1 ⟨140, 44⟩
    (by norm_num) (by norm_num) (by norm_num) (by norm_num)
  simpa using h3

/-- C10: with expand_to_edges unset (dock mode) the wing accessors return
None and plugins_center returns left wing, configured center list if any,
and right wing concatenated, so every applet lands in the center region. -/
theorem c10_dock_plugins (c : CosmicPanelConfig) (h : c.expand_to_edges = false) :
    c.plugins_left = none ∧ c.plugins_right = none ∧
    c.plugins_center_acc =
      (if c.plugins_wings = none ∧ c.plugins_center = none then none
       else some (((c.plugins_wings.getD ([], [])).1
         ++ c.plugins_center.getD []) ++ (c.plugins_wings.getD ([], [])).2)) := by
  refine ⟨?_, ?_, ?_⟩
  · simp [CosmicPanelConfig.plugins_left, h]
  · simp [CosmicPanelConfig.plugins_right, h]
  · rcases hw : c.plugins_wings with _ | ⟨l, r⟩ <;>
      rcases hc : c.plugins_center with _ | pc <;>
      simp [CosmicPanelConfig.plugins_center_acc, h, hw, hc]

theorem i32Sat_eq {z : ℤ} (h1 : -(2^31) ≤ z) (h2 : z ≤ 2^31 - 1) : i32Sat z = z := by
  unfold i32Sat
  omega

theorem setMargin_anchored (anchor : PanelAnchor) (m t : ℤ) (e : Option ℤ) :
    MarginCommit.anchored (setMargin anchor m t e) anchor = t := by
  cases anchor <;> rfl

/-- C4: reversing a transition mid flight, with accumulated elapsed time e
below the duration T, starts the opposite transition with elapsed exactly
T - e and carries prev_margin over, in both directions. -/
theorem c4_reversal_time_symmetric
    (cfg : CosmicPanelConfig) (a : AutoHide) (ha : cfg.autohide = some a)
    (dims : ℤ × ℤ) (si : ℕ) (belongs : ℕ → Bool) (cF cH : List FocusEntry)
    (now lastI e0 : ℕ) (pm : ℤ) (hnow : lastI ≤ now)
    (_he : e0 + (now - lastI) < a.transition_time) :
    (curFocusFold belongs si (cF ++ cH) = .Focused →
      handleFocus ⟨cfg, dims, si, .TransitionToHidden lastI e0 pm, true⟩ belongs cF cH now =
        ⟨.TransitionToVisible now (a.transition_time - (e0 + (now - lastI))) pm, none, false⟩) ∧
    (∀ t, curFocusFold belongs si (cF ++ cH) = .LastFocused t →
      handleFocus ⟨cfg, dims, si, .TransitionToVisible lastI e0 pm, true⟩ belongs cF cH now =
        ⟨.TransitionToHidden now (a.transition_time - (e0 + (now - lastI))) pm, none, true⟩) := by
  have hnlt : ¬ now < lastI := by omega
  constructor
  · intro hf
    simp [handleFocus, ha, hf, hnlt, CosmicPanelConfig.get_hide_transition]
  · intro t hf
    simp [handleFocus, ha, hf, hnlt, CosmicPanelConfig.get_hide_transition]

/-- C4 witness: a concrete mid-flight reversal at 150 of 200 milliseconds
yields a reversed transition with elapsed 50 and the carried margin. -/
theorem c4_reversal_time_symmetric_witness :
    cfgAuto.autohide = some ⟨1000, 200, 4⟩ ∧
    (0 : ℕ) ≤ 100 ∧ 50 + (100 - 0) < 200 ∧
    handleFocus ⟨cfgAuto, (500, 40), 0, .TransitionToHidden 0 50 (-7), true⟩
        (fun _ => true) [⟨7, .Focused⟩] [] 100 =
      ⟨.TransitionToVisible 100 50 (-7), none, false⟩ := by
  refine ⟨rfl, by omega, by omega, ?_⟩
  have h := (c4_reversal_time_symmetric cfgAuto ⟨1000, 200, 4⟩ rfl (500, 40) 0
    (fun _ => true) [⟨7, .Focused⟩] [] 100 0 50 (-7) (by omega) (by decide)).1
    (by simp [curFocusFold])
  simpa using h

/-- C3 counterexample: with no autohide configured, a panel that starts
Visible is set to Hidden by the very next handle_focus tick once every focus
entry reports LastFocused (here: no focus entries at all), so Hidden is
reachable without autohide and the state is not permanently Visible. -/
theorem c3_counterexample :
    cfgBase.autohide = none ∧
    initialVisibility cfgBase = .Visible ∧
    (handleFocus ⟨cfgBase, (500, 40), 0, .Visible, true⟩
      (fun _ => false) [] [] 5).visibility = .Hidden ∧
    ReachableVis cfgBase .Hidden := by
  refine ⟨rfl, rfl, rfl, ?_⟩
  exact ReachableVis.step (initialVisibility cfgBase)
    (500, 40) 0 true (fun _ => false) [] [] 5 ReachableVis.init

/-- C3 (amended): the initial state is Visible without autohide and Hidden
with it; without autohide every reachable state is Visible or Hidden, and a
handle_focus tick with a live layer sets the state to Hidden exactly when
every focus and hover entry reports LastFocused, Visible otherwise. -/
theorem c3_amended_no_autohide_visibility :
    (∀ c : CosmicPanelConfig, c.autohide = none → initialVisibility c = .Visible) ∧
    (∀ c : CosmicPanelConfig, c.autohide ≠ none → initialVisibility c = .Hidden) ∧
    (∀ (c : CosmicPanelConfig) (v : Visibility), c.autohide = none →
      ReachableVis c v → v = .Visible ∨ v = .Hidden) ∧
    (∀ (c : CosmicPanelConfig) (dims : ℤ × ℤ) (si : ℕ) (v : Visibility)
        (belongs : ℕ → Bool) (cF cH : List FocusEntry) (now : ℕ),
      c.autohide = none →
      (handleFocus ⟨c, dims, si, v, true⟩ belongs cF cH now).visibility =
        (if (cF.all fun e => e.status.isLastFocused)
            && (cH.all fun e => e.status.isLastFocused)
         then .Hidden else .Visible)) := by
  have key : ∀ (c : CosmicPanelConfig) (dims : ℤ × ℤ) (si : ℕ) (v : Visibility)
      (belongs : ℕ → Bool) (cF cH : List FocusEntry) (now : ℕ),
      c.autohide = none →
      (handleFocus ⟨c, dims, si, v, true⟩ belongs cF cH now).visibility =
        (if (cF.all fun e => e.status.isLastFocused)
            && (cH.all fun e => e.status.isLastFocused)
         then .Hidden else .Visible) := by
    intro c dims si v belongs cF cH now hc
    simp [handleFocus, hc, apply_ite FocusResult.visibility]
  refine ⟨?_, ?_, ?_, key⟩
  · intro c hc
    simp [initialVisibility, hc]
  · intro c hc
    simp [initialVisibility, hc]
  · intro c v hc hr
    induction hr with
    | init => left; simp [initialVisibility, hc]
    | step v dims si hl belongs cF cH now hv ih =>
      cases hl with
      | false => simpa [handleFocus] using ih
      | true =>
        rw [key c dims si v belongs cF cH now hc]
        split
        · right; rfl
        · left; rfl

/-- C3 witness: the amended statement instantiated at the default config. -/
theorem c3_amended_no_autohide_visibility_witness :
    cfgBase.autohide = none ∧
    initialVisibility cfgBase = .Visible ∧
    (initialVisibility cfgBase = .Visible ∨ initialVisibility cfgBase = .Hidden) ∧
    (handleFocus ⟨cfgBase, (500, 40), 0, .Visible, true⟩
        (fun _ => false) [⟨3, .LastFocused 1⟩] [] 5).visibility = .Hidden := by
  refine ⟨rfl, c3_amended_no_autohide_visibility.1 cfgBase rfl, ?_, ?_⟩
  · exact c3_amended_no_autohide_visibility.2.2.1 cfgBase (initialVisibility cfgBase) rfl
      ReachableVis.init
  · have h := c3_amended_no_autohide_visibility.2.2.2 cfgBase (500, 40) 0 .Visible
      (fun _ => false) [⟨3, .LastFocused 1⟩] [] 5 rfl
    simpa [FocusStatus.isLastFocused] using h

theorem handleFocus_hidden_inflight
    (cfg : CosmicPanelConfig) (a : AutoHide) (ha : cfg.autohide = some a)
    (dims : ℤ × ℤ) (si : ℕ) (belongs : ℕ → Bool) (cF cH : List FocusEntry)
    (now lastI e0 : ℕ) (pm : ℤ) (t : ℕ) (hnow : lastI ≤ now)
    (hf : curFocusFold belongs si (cF ++ cH) = .LastFocused t)
    (hterm : e0 + (now - lastI) ≤ a.transition_time) :
    handleFocus ⟨cfg, dims, si, .TransitionToHidden lastI e0 pm, true⟩ belongs cF cH now =
      ⟨.TransitionToHidden now (e0 + (now - lastI))
        (ratToI32 (smootherstepQ (((e0 + (now - lastI) : ℕ) : ℚ) / (a.transition_time : ℚ))
          * ((-(panelSizeWithGap cfg dims) + (a.handle_size : ℤ) : ℤ) : ℚ))),
       if pm ≠ ratToI32 (smootherstepQ (((e0 + (now - lastI) : ℕ) : ℚ) / (a.transition_time : ℚ))
            * ((-(panelSizeWithGap cfg dims) + (a.handle_size : ℤ) : ℤ) : ℚ)) then
         some (setMargin cfg.anchor (cfg.get_margin : ℤ)
           (ratToI32 (smootherstepQ (((e0 + (now - lastI) : ℕ) : ℚ) / (a.transition_time : ℚ))
             * ((-(panelSizeWithGap cfg dims) + (a.handle_size : ℤ) : ℤ) : ℚ)))
           (if cfg.exclusive_zone then
              some (panelSizeWithGap cfg dims
                - ratToI32 (smootherstepQ (((e0 + (now - lastI) : ℕ) : ℚ) / (a.transition_time : ℚ))
                  * ((-(panelSizeWithGap cfg dims) + (a.handle_size : ℤ) : ℤ) : ℚ)))
            else none))
       else none,
       true⟩ := by
  have hnlt : ¬ now < lastI := by omega
  have hngt : ¬ (e0 + (now - lastI) > a.transition_time) := by omega
  simp [handleFocus, ha, hf, hnlt, hngt, CosmicPanelConfig.get_hide_transition,
    CosmicPanelConfig.get_hide_handle, CosmicPanelConfig.get_margin]

/-- C5 counterexample: at t = 100 of T = 200 the emitted margin equals the
linear half of the target, because smootherstep(1/2) = 1/2; the claim that
the margin differs from 0.5 times the target at this point is false. -/
theorem c5_counterexample :
    (handleFocus ⟨cfgAuto, (500, 40), 0, .TransitionToHidden 0 0 0, true⟩
        (fun _ => false) [] [] 100).visibility = .TransitionToHidden 100 100 (-18) ∧
    smootherstepQ (1/2) = 1/2 ∧
    ratToI32 ((1/2 : ℚ) * (-36 : ℚ)) = -18 := by
  have h := handleFocus_hidden_inflight cfgAuto ⟨1000, 200, 4⟩ rfl (500, 40) 0
    (fun _ => false) [] [] 100 0 0 0 0 (by omega) rfl (by decide)
  refine ⟨?_, ?_, ?_⟩
  · rw [h]
    norm_num [panelSizeWithGap, cfgAuto, cfgBase, smootherstepQ, min_def, max_def,
      CosmicPanelConfig.get_effective_anchor_gap, ratToI32, ratTrunc, i32Sat]
  · norm_num [smootherstepQ, min_def, max_def]
  · norm_num [ratToI32, ratTrunc, i32Sat, min_def, max_def]

/-- C5 (amended): during an in-flight hide transition that is not reversed,
the recorded prev_margin and any emitted anchored margin equal the i32
truncation of smootherstep(e/T) times the target
-(panel size + effective anchor gap) + handle_size; the easing coincides
with the linear ramp at one half but differs at one quarter. -/
theorem c5_eased_margin
    (cfg : CosmicPanelConfig) (a : AutoHide) (ha : cfg.autohide = some a)
    (dims : ℤ × ℤ) (si : ℕ) (belongs : ℕ → Bool) (cF cH : List FocusEntry)
    (now lastI e0 : ℕ) (pm : ℤ) (t : ℕ) (hnow : lastI ≤ now)
    (hf : curFocusFold belongs si (cF ++ cH) = .LastFocused t)
    (hterm : e0 + (now - lastI) ≤ a.transition_time) :
    (handleFocus ⟨cfg, dims, si, .TransitionToHidden lastI e0 pm, true⟩
        belongs cF cH now).visibility
      = .TransitionToHidden now (e0 + (now - lastI))
          (ratToI32 (smootherstepQ (((e0 + (now - lastI) : ℕ) : ℚ) / (a.transition_time : ℚ))
            * ((-(panelSizeWithGap cfg dims) + (a.handle_size : ℤ) : ℤ) : ℚ))) ∧
    (∀ mc, (handleFocus ⟨cfg, dims, si, .TransitionToHidden lastI e0 pm, true⟩
        belongs cF cH now).commit = some mc →
      MarginCommit.anchored mc cfg.anchor
        = ratToI32 (smootherstepQ (((e0 + (now - lastI) : ℕ) : ℚ) / (a.transition_time : ℚ))
            * ((-(panelSizeWithGap cfg dims) + (a.handle_size : ℤ) : ℤ) : ℚ))) ∧
    smootherstepQ (1/2) = 1/2 ∧ smootherstepQ (1/4) ≠ 1/4 := by
  have h := handleFocus_hidden_inflight cfg a ha dims si belongs cF cH
    now lastI e0 pm t hnow hf hterm
  refine ⟨?_, ?_, ?_, ?_⟩
  · rw [h]
  · intro mc hmc
    rw [h] at hmc
    simp only at hmc
    split at hmc
    · rw [Option.some_inj] at hmc
      rw [← hmc]
      rw [setMargin_anchored]
    · exact absurd hmc (by simp)
  · norm_num [smootherstepQ, min_def, max_def]
  · norm_num [smootherstepQ, min_def, max_def]

/-- C5 witness: the amended statement at 100 of 200 milliseconds with a
concrete config. -/
theorem c5_eased_margin_witness :
    cfgAuto.autohide = some ⟨1000, 200, 4⟩ ∧
    curFocusFold (fun _ => false) 0 ([] ++ []) = .LastFocused 0 ∧
    (0 : ℕ) + (100 - 0) ≤ 200 ∧
    (handleFocus ⟨cfgAuto, (500, 40), 0, .TransitionToHidden 0 0 0, true⟩
        (fun _ => false) [] [] 100).visibility
      = .TransitionToHidden 100 100
          (ratToI32 (smootherstepQ ((100 : ℚ) / 200) * (-36 : ℚ))) := by
  refine ⟨rfl, rfl, by omega, ?_⟩
  have h := (c5_eased_margin cfgAuto ⟨1000, 200, 4⟩ rfl (500, 40) 0
    (fun _ => false) [] [] 100 0 0 0 0 (by omega) rfl (by decide)).1
  simpa [panelSizeWithGap, cfgAuto, cfgBase,
    CosmicPanelConfig.get_effective_anchor_gap] using h

/-- C8 counterexample: with elapsed exactly equal to the duration the
transition does not reach its terminal state; the state remains
TransitionToHidden, so the claimed non-strict threshold is wrong. -/
theorem c8_counterexample :
    (handleFocus ⟨cfgAuto, (500, 40), 0, .TransitionToHidden 0 0 0, true⟩
        (fun _ => false) [] [] 200).visibility = .TransitionToHidden 200 200 (-36) ∧
    (handleFocus ⟨cfgAuto, (500, 40), 0, .TransitionToHidden 0 0 0, true⟩
        (fun _ => false) [] [] 200).visibility ≠ .Hidden ∧
    (200 : ℕ) ≥ 200 := by
  have h0 := handleFocus_hidden_inflight cfgAuto ⟨1000, 200, 4⟩ rfl (500, 40) 0
    (fun _ => false) [] [] 200 0 0 0 0 (by omega) rfl (by decide)
  have h : (handleFocus ⟨cfgAuto, (500, 40), 0, .TransitionToHidden 0 0 0, true⟩
      (fun _ => false) [] [] 200).visibility = .TransitionToHidden 200 200 (-36) := by
    rw [h0]
    norm_num [panelSizeWithGap, cfgAuto, cfgBase, smootherstepQ, min_def, max_def,
      CosmicPanelConfig.get_effective_anchor_gap, ratToI32, ratTrunc, i32Sat]
  refine ⟨h, ?_, by omega⟩
  rw [h]
  simp

/-- C8 (amended): a transition reaches its terminal state strictly after the
duration (elapsed > T), and at that moment the margin is set exactly, not
interpolated: the handle-size offset -(panel size) + handle_size for Hidden
and zero for Visible on the anchored edge, the set_margin target being the
anchored-edge margin. -/
theorem c8_terminal_exact_margins
    (cfg : CosmicPanelConfig) (a : AutoHide) (ha : cfg.autohide = some a)
    (dims : ℤ × ℤ) (si : ℕ) (belongs : ℕ → Bool) (cF cH : List FocusEntry)
    (now lastI e0 : ℕ) (pm : ℤ) (hnow : lastI ≤ now)
    (hgt : e0 + (now - lastI) > a.transition_time) :
    (∀ t, curFocusFold belongs si (cF ++ cH) = .LastFocused t →
      handleFocus ⟨cfg, dims, si, .TransitionToHidden lastI e0 pm, true⟩ belongs cF cH now =
        ⟨.Hidden,
         some (setMargin cfg.anchor (cfg.get_margin : ℤ)
           (-(panelSizeWithGap cfg dims) + (a.handle_size : ℤ))
           (if cfg.exclusive_zone then
              some (panelSizeWithGap cfg dims + (a.handle_size : ℤ)) else none)),
         false⟩) ∧
    (curFocusFold belongs si (cF ++ cH) = .Focused →
      handleFocus ⟨cfg, dims, si, .TransitionToVisible lastI e0 pm, true⟩ belongs cF cH now =
        ⟨.Visible,
         some (setMargin cfg.anchor (cfg.get_margin : ℤ) 0
           (if cfg.exclusive_zone then some (panelSizeWithGap cfg dims) else none)),
         false⟩) ∧
    (∀ (anchor : PanelAnchor) (m tg : ℤ) (e : Option ℤ),
      MarginCommit.anchored (setMargin anchor m tg e) anchor = tg) := by
  have hnlt : ¬ now < lastI := by omega
  refine ⟨?_, ?_, fun anchor m tg e => setMargin_anchored anchor m tg e⟩
  · intro t hf
    simp [handleFocus, ha, hf, hnlt, hgt, CosmicPanelConfig.get_hide_transition,
      CosmicPanelConfig.get_hide_handle]
  · intro hf
    simp [handleFocus, ha, hf, hnlt, hgt, CosmicPanelConfig.get_hide_transition,
      CosmicPanelConfig.get_hide_handle]

/-- C8 witness: terminal hide at 300 of 200 milliseconds with a concrete
config; the commit carries the exact handle-size offset. -/
theorem c8_terminal_exact_margins_witness :
    cfgAuto.autohide = some ⟨1000, 200, 4⟩ ∧
    (0 : ℕ) + (300 - 0) > 200 ∧
    handleFocus ⟨cfgAuto, (500, 40), 0, .TransitionToHidden 0 0 0, true⟩
        (fun _ => false) [] [] 300 =
      ⟨.Hidden, some (setMargin .Top 4 (-36) (some 44)), false⟩ := by
  refine ⟨rfl, by omega, ?_⟩
  have h := (c8_terminal_exact_margins cfgAuto ⟨1000, 200, 4⟩ rfl (500, 40) 0
    (fun _ => false) [] [] 300 0 0 0 (by omega) (by decide)).1 0 rfl
  simpa [panelSizeWithGap, cfgAuto, cfgBase, CosmicPanelConfig.get_margin,
    CosmicPanelConfig.get_effective_anchor_gap] using h

theorem oppositeAnchor_isSome (a b : PanelAnchor) :
    (oppositeAnchor a b).isSome = decide (a ≠ b) := by
  unfold oppositeAnchor
  split <;> simp_all

theorem anchor_change_iff (c e : CosmicPanelConfig) :
    c.anchor ≠ e.anchor ↔
      (e.anchor = c.anchor.opposite ∨ c.is_horizontal ≠ e.is_horizontal) := by
  cases hA : c.anchor <;> cases hB : e.anchor <;>
    simp [CosmicPanelConfig.is_horizontal, hA, hB, PanelAnchor.opposite]

/-- C1: an update is applied in place exactly when no recreation condition
holds: output-count mismatch, size-class change, a changed specific
(non-All) output, the anchor flipping to its opposite edge, or a change of
orientation, background, or either plugin list — given that config names in
the container list are unique. In particular anchor Top to Bottom forces
recreation while an opacity-only change is an in-place update. -/
theorem c1_update_in_place_iff
    (spaces : List CosmicPanelConfig) (outputsLen : ℕ)
    (configList : List CosmicPanelConfig) (entry : CosmicPanelConfig)
    (huniq : ∀ c1 ∈ configList, ∀ c2 ∈ configList,
      c1.name = entry.name → c2.name = entry.name → c1 = c2) :
    (mustRecreate spaces outputsLen configList entry
      = specMustRecreate spaces outputsLen configList entry) ∧
    mustRecreate [cfgBase] 1 [cfgBase] cfgTopToBottom = true ∧
    mustRecreate [cfgBase] 1 [cfgBase] cfgOpacityOnly = false := by
  refine ⟨?_, by decide, by decide⟩
  unfold mustRecreate specMustRecreate
  cases houtm : outputCountMismatch spaces outputsLen entry
  case true => simp
  case false =>
    simp only [Bool.false_or]
    cases hfind : configList.find? (fun c => c.name == entry.name) with
    | none =>
      have hno : ∀ c ∈ configList, ¬ c.name = entry.name := by
        intro c hc
        have h := List.find?_eq_none.mp hfind c hc
        simpa using h
      simp only [oldPriorityAnchor, hfind, Option.map_none', Option.getD_none]
      rw [show oppositeAnchor entry.anchor entry.anchor = none from by
        simp [oppositeAnchor]]
      simp only [Option.isSome_none, Bool.or_false]
      rw [List.any_eq_false]
      intro c hc
      have := hno c hc
      simp [this]
    | some c0 =>
      have hc0mem : c0 ∈ configList := List.mem_of_find?_eq_some hfind
      have hc0name : c0.name = entry.name := by
        have h := List.find?_some hfind
        simpa using h
      simp only [oldPriorityAnchor, hfind, Option.map_some', Option.getD_some]
      rw [Bool.eq_iff_iff]
      simp only [List.any_eq_true]
      have hanchIff := anchor_change_iff c0 entry
      constructor
      · rintro ⟨c, hc, hcond⟩
        simp only [Bool.or_eq_true, Bool.and_eq_true, decide_eq_true_eq,
          beq_iff_eq, oppositeAnchor_isSome] at hcond
        simp only [specRecreateConds, Bool.or_eq_true, Bool.and_eq_true,
          decide_eq_true_eq]
        by_cases hname : c.name = entry.name
        · have hEq : c = c0 := huniq c hc c0 hc0mem hname hc0name
          subst hEq
          tauto
        · tauto
      · intro hspec
        refine ⟨c0, hc0mem, ?_⟩
        simp only [specRecreateConds, Bool.or_eq_true, Bool.and_eq_true,
          decide_eq_true_eq] at hspec
        simp only [Bool.or_eq_true, Bool.and_eq_true, decide_eq_true_eq,
          beq_iff_eq, oppositeAnchor_isSome]
        tauto

/-- C1 witness: the decision equivalence instantiated at a concrete
container list with a unique name. -/
theorem c1_update_in_place_iff_witness :
    (∀ c1 ∈ [cfgBase], ∀ c2 ∈ [cfgBase],
      c1.name = cfgTopToBottom.name → c2.name = cfgTopToBottom.name → c1 = c2) ∧
    (mustRecreate [cfgBase] 1 [cfgBase] cfgTopToBottom
      = specMustRecreate [cfgBase] 1 [cfgBase] cfgTopToBottom) ∧
    mustRecreate [cfgBase] 1 [cfgBase] cfgTopToBottom = true ∧
    mustRecreate [cfgBase] 1 [cfgBase] cfgOpacityOnly = false := by
  have hu : ∀ c1 ∈ [cfgBase], ∀ c2 ∈ [cfgBase],
      c1.name = cfgTopToBottom.name → c2.name = cfgTopToBottom.name → c1 = c2 := by
    intro c1 h1 c2 h2 _ _
    simp only [List.mem_singleton] at h1 h2
    rw [h1, h2]
  have h := c1_update_in_place_iff [cfgBase] 1 [cfgBase] cfgTopToBottom hu
  exact ⟨hu, h.1, h.2.1, h.2.2⟩

theorem mem_recreatedConfigs (configList configs : List CosmicPanelConfig)
    (entry c : CosmicPanelConfig) :
    c ∈ recreatedConfigs configList configs entry ↔
      c ∈ configs ∧ isRecreated entry c
        (oppositeAnchor (oldPriorityAnchor configList entry).2 entry.anchor)
        (oldPriorityAnchor configList entry).1 entry.get_priority = true := by
  unfold recreatedConfigs sortByPriorityDesc
  rw [List.mem_filter]
  constructor
  · rintro ⟨hm, hcond⟩
    exact ⟨(List.mergeSort_perm _ _).mem_iff.mp hm, hcond⟩
  · rintro ⟨hm, hcond⟩
    exact ⟨(List.mergeSort_perm _ _).mem_iff.mpr hm, hcond⟩

/-- C7 counterexample: with the anchor flipped from Top to Bottom, the
neighbor config cfgOther has priority 1100, strictly between the old 310 and
the new 1310, yet it is not recreated because its anchor equals the opposite
of the new anchor — the claim omits this anchor guard. -/
theorem c7_counterexample :
    cfgOther.name ≠ cfgPanelNew.name ∧
    strictlyBetween cfgOther.get_priority
      (oldPriorityAnchor [cfgPanelOld] cfgPanelNew).1 cfgPanelNew.get_priority = true ∧
    cfgOther ∉ recreatedConfigs [cfgPanelOld] [cfgOther, cfgPanelNew] cfgPanelNew := by
  refine ⟨by decide, by decide, ?_⟩
  rw [mem_recreatedConfigs]
  rintro ⟨-, hcond⟩
  revert hcond
  decide

/-- C7 (amended): the priority score is the additive sum of 1000 for
expand_to_edges, 200 for zero margin, 100 for no anchor gap and 10 for a
name containing panel; the recreated configs of an output come out in
descending priority; and a config other than the changed one is recreated
exactly when its priority lies strictly between the old and new priority and
additionally its anchor is not the opposite of the changed config's new
anchor. -/
theorem c7_priority_recreation :
    (∀ c : CosmicPanelConfig, c.get_priority =
      (if c.expand_to_edges then 1000 else 0) + (if c.margin = 0 then 200 else 0)
      + (if !c.anchor_gap then 100 else 0)
      + (if nameHasPanel c.name then 10 else 0)) ∧
    (∀ (configList configs : List CosmicPanelConfig) (entry : CosmicPanelConfig),
      (recreatedConfigs configList configs entry).Pairwise
        (fun a b => b.get_priority ≤ a.get_priority)) ∧
    (∀ (configList configs : List CosmicPanelConfig) (entry c : CosmicPanelConfig),
      c ∈ recreatedConfigs configList configs entry ↔
        c ∈ configs ∧ isRecreated entry c
          (oppositeAnchor (oldPriorityAnchor configList entry).2 entry.anchor)
          (oldPriorityAnchor configList entry).1 entry.get_priority = true) ∧
    (∀ (entry c : CosmicPanelConfig) (oppA : Option PanelAnchor) (oldP newP : ℕ),
      c.name ≠ entry.name →
      (isRecreated entry c oppA oldP newP = true ↔
        (some c.anchor ≠ oppA ∧ strictlyBetween c.get_priority oldP newP = true))) := by
  refine ⟨?_, ?_, mem_recreatedConfigs, ?_⟩
  · intro c
    unfold CosmicPanelConfig.get_priority
    by_cases h1 : c.expand_to_edges <;> by_cases h2 : c.margin = 0 <;>
      by_cases h3 : c.anchor_gap <;> by_cases h4 : nameHasPanel c.name <;>
      simp [h1, h2, h3, h4]
  · intro configList configs entry
    have hsorted : List.Pairwise
        (fun a b : CosmicPanelConfig => (decide (b.get_priority ≤ a.get_priority)) = true)
        (configs.mergeSort fun a b => decide (b.get_priority ≤ a.get_priority)) :=
      List.sorted_mergeSort
        (fun a b c hab hbc => by
          simp only [decide_eq_true_eq] at hab hbc ⊢
          omega)
        (fun a b => by
          simp only [Bool.or_eq_true, decide_eq_true_eq]
          exact Nat.le_total b.get_priority a.get_priority)
        configs
    unfold recreatedConfigs sortByPriorityDesc
    refine List.Pairwise.imp ?_ (List.Pairwise.sublist (List.filter_sublist _) hsorted)
    intro a b h
    simpa using h
  · intro entry c oppA oldP newP hname
    have hbeq : (c.name == entry.name) = false := by
      simp [hname]
    simp [isRecreated, hbeq]

/-- C7 witness: concrete priorities and the recreation rule at a concrete
neighbor. -/
theorem c7_priority_recreation_witness :
    cfgPanelNew.get_priority = 1310 ∧
    cfgOther.name ≠ cfgPanelNew.name ∧
    (isRecreated cfgPanelNew cfgOther (some .Top) 310 1310 = true ↔
      (some cfgOther.anchor ≠ some PanelAnchor.Top ∧
        strictlyBetween cfgOther.get_priority 310 1310 = true)) := by
  refine ⟨?_, by decide,
    c7_priority_recreation.2.2.2 cfgPanelNew cfgOther (some .Top) 310 1310 (by decide)⟩
  rw [c7_priority_recreation.1 cfgPanelNew]
  decide

theorem layoutRun_sums (li : LayoutIn) :
    (layoutRun li).leftSumScaled = layoutLeftSum li ∧
    (layoutRun li).centerSumScaled = layoutCenterSum li ∧
    (layoutRun li).rightSumScaled = layoutRightSum li ∧
    (layoutRun li).newListLength = layoutNewListLength li := by
  unfold layoutRun
  dsimp only
  split
  · exact ⟨rfl, rfl, rfl, rfl⟩
  · split
    · exact ⟨rfl, rfl, rfl, rfl⟩
    · exact ⟨rfl, rfl, rfl, rfl⟩

theorem regionSumScaled_perm {ws1 ws2 : List Win} (anchor : PanelAnchor) (s : ℚ)
    (h : ws1.Perm ws2) :
    regionSumScaled anchor s ws1 = regionSumScaled anchor s ws2 := by
  unfold regionSumScaled
  rw [List.Perm.sum_eq (h.map _), h.length_eq]

theorem makeIndicesContiguous_snd (ws : List Win) :
    (makeIndicesContiguous ws).map Prod.snd
      = ws.mergeSort fun a b => a.idx ≤ b.idx := by
  unfold makeIndicesContiguous
  exact List.enum_map_snd _

theorem layoutLeftSum_eq (li : LayoutIn) :
    layoutLeftSum li
      = regionSumScaled li.config.anchor (layoutSpacingScaled li) li.winsLeft := by
  unfold layoutLeftSum
  rw [makeIndicesContiguous_snd]
  exact regionSumScaled_perm _ _ (List.mergeSort_perm _ _)

theorem layoutCenterSum_eq (li : LayoutIn) :
    layoutCenterSum li
      = regionSumScaled li.config.anchor (layoutSpacingScaled li) li.winsCenter := by
  unfold layoutCenterSum
  rw [makeIndicesContiguous_snd]
  exact regionSumScaled_perm _ _ (List.mergeSort_perm _ _)

theorem layoutRightSum_eq (li : LayoutIn) :
    layoutRightSum li
      = regionSumScaled li.config.anchor (layoutSpacingScaled li) li.winsRight := by
  unfold layoutRightSum
  rw [makeIndicesContiguous_snd]
  exact regionSumScaled_perm _ _ (List.mergeSort_perm _ _)

theorem liC2_values :
    (layoutRun liC2).leftSumScaled = 128 ∧
    (layoutRun liC2).newListLength = 140 := by
  constructor
  · rw [(layoutRun_sums liC2).1, layoutLeftSum_eq]
    norm_num [regionSumScaled, layoutSpacingScaled, liC2, cfgWingsOnly, cfgBase,
      lengthwise]
  · rw [(layoutRun_sums liC2).2.2.2]
    unfold layoutNewListLength
    rw [layoutLeftSum_eq, layoutCenterSum_eq, layoutRightSum_eq]
    norm_num [regionSumScaled, layoutSpacingScaled, layoutPaddingScaled,
      layoutNumLists, liC2, cfgWingsOnly, cfgBase, lengthwise,
      ratToI32, ratTrunc, i32Sat]

/-- C2 counterexample: in the spec scenario (three left-tagged windows of
lengthwise size 40, padding 4, spacing 4, wings configured, no center list)
the left sum is 128 as claimed, and the claimed total-length formula over
nonempty regions (here exactly one) indeed yields 136 — but the code
computes 140, because the spacing term at layout.rs:153-155 scales
num_lists, which counts the configured wings pair as two, not the nonempty
regions. -/
theorem c2_counterexample :
    (layoutRun liC2).leftSumScaled = 128 ∧
    nonemptyRegions liC2 = 1 ∧
    ratToI32 (specTotalLength liC2) = 136 ∧
    layoutNumLists liC2.config = 2 ∧
    (layoutRun liC2).newListLength = 140 ∧
    (layoutRun liC2).newListLength ≠ ratToI32 (specTotalLength liC2) := by
  have hspec : ratToI32 (specTotalLength liC2) = 136 := by
    unfold specTotalLength
    rw [layoutLeftSum_eq, layoutCenterSum_eq, layoutRightSum_eq]
    norm_num [regionSumScaled, layoutSpacingScaled, layoutPaddingScaled,
      nonemptyRegions, liC2, cfgWingsOnly, cfgBase, lengthwise,
      ratToI32, ratTrunc, i32Sat]
  refine ⟨liC2_values.1, by decide, hspec, by decide, liC2_values.2, ?_⟩
  rw [liC2_values.2, hspec]
  decide

/-- C2 (amended): each region's scaled lengthwise sum is the sum of the
windows' lengthwise dimensions (height for Left/Right anchors, width for
Top/Bottom) plus scaled spacing times (count.max(1) - 1), so an empty region
contributes 0; the physical panel length is the i32 truncation of the three
sums plus twice the scaled padding plus scaled spacing times
(num_lists - 1), where num_lists counts a configured wings pair as two and a
configured center list as one — not the number of nonempty regions. In the
spec scenario the left sum is 128 and the total length is 140. -/
theorem c2_region_sums_total_length :
    (∀ li : LayoutIn,
      (layoutRun li).leftSumScaled =
        (((li.winsLeft.map (lengthwise li.config.anchor)).sum : ℤ) : ℚ)
          + (li.config.spacing : ℚ) * li.scale
            * (((max li.winsLeft.length 1 : ℕ) : ℚ) - 1) ∧
      (layoutRun li).centerSumScaled =
        (((li.winsCenter.map (lengthwise li.config.anchor)).sum : ℤ) : ℚ)
          + (li.config.spacing : ℚ) * li.scale
            * (((max li.winsCenter.length 1 : ℕ) : ℚ) - 1) ∧
      (layoutRun li).rightSumScaled =
        (((li.winsRight.map (lengthwise li.config.anchor)).sum : ℤ) : ℚ)
          + (li.config.spacing : ℚ) * li.scale
            * (((max li.winsRight.length 1 : ℕ) : ℚ) - 1) ∧
      (layoutRun li).newListLength =
        ratToI32 ((layoutRun li).leftSumScaled + (layoutRun li).centerSumScaled
          + (layoutRun li).rightSumScaled
          + ((li.config.padding : ℚ) * li.scale) * 2
          + ((li.config.spacing : ℚ) * li.scale)
            * ((layoutNumLists li.config : ℚ) - 1))) ∧
    (layoutRun liC2).leftSumScaled = 128 ∧
    (layoutRun liC2).newListLength = 140 := by
  refine ⟨?_, liC2_values.1, liC2_values.2⟩
  intro li
  obtain ⟨h1, h2, h3, h4⟩ := layoutRun_sums li
  refine ⟨?_, ?_, ?_, ?_⟩
  · rw [h1, layoutLeftSum_eq]
    rfl
  · rw [h2, layoutCenterSum_eq]
    rfl
  · rw [h3, layoutRightSum_eq]
    rfl
  · rw [h4, h1, h2, h3]
    rfl

theorem layoutRun_bail_spec (li : LayoutIn) (hreg : li.hasLayerAndRegion = true) :
    ((layoutRun li).bailed = true ↔ layoutThicknessDim li ≠ layoutListThickness li) ∧
    ((layoutRun li).bailed = true →
      (layoutRun li).pendingDimensions = some (layoutNewDim li) ∧
      (layoutRun li).isDirty = true ∧ (layoutRun li).placements = []) ∧
    ((layoutRun li).bailed = false →
      (layoutRun li).pendingDimensions = li.pendingDimensions ∧
      (layoutRun li).isDirty = li.isDirty) := by
  unfold layoutRun
  rw [hreg]
  rw [if_neg (by simp)]
  dsimp only
  split
  case isTrue h => exact ⟨iff_of_true rfl h, fun _ => ⟨rfl, rfl, rfl⟩, by simp⟩
  case isFalse h =>
    refine ⟨iff_of_false (by simp) h, by simp, fun _ => ⟨rfl, rfl⟩⟩

theorem uwlRun_bail_spec (ui : UwlIn) (hreg : ui.hasLayerAndRegion = true) :
    ((uwlRun ui).bailed = true ↔
      ((uwlNewLens ui).1 ≠ (uwlListLens ui).1
        ∨ (uwlNewLens ui).2 ≠ (uwlListLens ui).2.1)) ∧
    ((uwlRun ui).bailed = true →
      (uwlRun ui).pendingDimensions = some (uwlNewDim ui) ∧
      (uwlRun ui).isDirty = true ∧ (uwlRun ui).placements = []) := by
  unfold uwlRun
  rw [hreg]
  rw [if_neg (by simp)]
  dsimp only
  split
  case isTrue h => exact ⟨iff_of_true rfl h, fun _ => ⟨rfl, rfl, rfl⟩⟩
  case isFalse h =>
    split
    case isTrue h2 => exact ⟨iff_of_false (by simp) h, by simp⟩
    case isFalse h2 => exact ⟨iff_of_false (by simp) h, by simp⟩

/-- C6 counterexample: the layout pass maps windows even though the
constrained dimensions (512 x 40 after the length clamp to the suggested
512) differ from the current surface dimensions 500 x 40: the length axis is
not compared, no pending dimensions are stored, is_dirty stays false, and a
placement is produced in the same tick. -/
theorem c6_counterexample :
    layoutNewDim liC6 = ⟨512, 40⟩ ∧
    liC6.dimensions = ⟨500, 40⟩ ∧
    (layoutRun liC6).bailed = false ∧
    (layoutRun liC6).pendingDimensions = none ∧
    (layoutRun liC6).isDirty = false ∧
    (layoutRun liC6).placements = [(0, 4, 4)] := by
  have hnd : layoutNewDim liC6 = ⟨512, 40⟩ := by
    norm_num [layoutNewDim, layoutConstrained, layoutActualSize0,
      layoutNewListLength, layoutNewListThickness, layoutLeftSum, layoutCenterSum,
      layoutRightSum, layoutSpacingScaled, layoutPaddingScaled, layoutNumLists,
      makeIndicesContiguous, List.mergeSort, regionSumScaled, lengthwise, crosswise,
      listMaxOrZero, constrainDim, clampRange, CosmicPanelConfig.get_dimensions,
      CosmicPanelConfig.is_horizontal, CosmicPanelConfig.get_effective_anchor_gap,
      liC6, cfgWingsOne, cfgBase, ratToI32, ratToI32Round, ratTrunc, ratRound, i32Sat]
  have hth : layoutThicknessDim liC6 = 40 := by
    have hanch : liC6.config.anchor = PanelAnchor.Top := rfl
    simp [layoutThicknessDim, hanch, hnd]
  have hlt : layoutListThickness liC6 = 40 := by
    norm_num [layoutListThickness, liC6, cfgWingsOne, cfgBase]
  have hspec := layoutRun_bail_spec liC6 rfl
  have hbail : (layoutRun liC6).bailed = false := by
    by_contra hb
    rw [Bool.not_eq_false] at hb
    exact absurd (hspec.1.mp hb) (by rw [hth, hlt]; simp)
  have hrest := hspec.2.2 hbail
  have hpl : (layoutRun liC6).placements = [(0, 4, 4)] := by
    norm_num [layoutRun, layoutListThickness, layoutLeftSum, layoutCenterSum,
      layoutRightSum, layoutSpacingScaled, layoutPaddingScaled, layoutNumLists,
      layoutNewListLength, layoutNewListThickness, layoutActualSize0,
      layoutConstrained, layoutActualSize, layoutNewDim, layoutDimLength,
      layoutThicknessDim, makeIndicesContiguous, List.mergeSort, regionSumScaled,
      lengthwise, crosswise, listMaxOrZero, constrainDim, clampRange,
      CosmicPanelConfig.get_dimensions, CosmicPanelConfig.is_horizontal,
      CosmicPanelConfig.get_effective_anchor_gap, CosmicPanelConfig.plugins_left,
      mapWindows, centerInBar, i32Div, u32ToI32, ratToU32, computeRectSettings,
      liC6, cfgWingsOne, cfgBase, ratToI32, ratToI32Round, ratTrunc, ratRound,
      i32Sat, min_def, max_def, Int.tdiv]
  exact ⟨hnd, rfl, hbail, hrest.1.trans rfl, hrest.2.trans rfl, hpl⟩

/-- C6 (amended): the layout pass aborts with the resizing retry signal
exactly when the constrained crosswise thickness differs from the current
surface thickness (PanelSpace::layout does not compare the length axis;
update_window_locations compares both axes); on abort it stores the new
dimensions in pending_dimensions, sets is_dirty and maps no window, and when
it does not abort it leaves pending_dimensions and is_dirty unchanged. The
abort is a Result error the caller only uses to skip rendering, never a hard
failure. -/
theorem c6_resize_abort_retry :
    (∀ li : LayoutIn, li.hasLayerAndRegion = true →
      ((layoutRun li).bailed = true ↔
        layoutThicknessDim li ≠ layoutListThickness li) ∧
      ((layoutRun li).bailed = true →
        (layoutRun li).pendingDimensions = some (layoutNewDim li) ∧
        (layoutRun li).isDirty = true ∧ (layoutRun li).placements = []) ∧
      ((layoutRun li).bailed = false →
        (layoutRun li).pendingDimensions = li.pendingDimensions ∧
        (layoutRun li).isDirty = li.isDirty)) ∧
    (∀ ui : UwlIn, ui.hasLayerAndRegion = true →
      ((uwlRun ui).bailed = true ↔
        ((uwlNewLens ui).1 ≠ (uwlListLens ui).1
          ∨ (uwlNewLens ui).2 ≠ (uwlListLens ui).2.1)) ∧
      ((uwlRun ui).bailed = true →
        (uwlRun ui).pendingDimensions = some (uwlNewDim ui) ∧
        (uwlRun ui).isDirty = true ∧ (uwlRun ui).placements = [])) :=
  ⟨layoutRun_bail_spec, uwlRun_bail_spec⟩

/-- C6 witness: concrete aborting inputs for both passes, with pending
dimensions stored and no placements. -/
theorem c6_resize_abort_retry_witness :
    liC6bail.hasLayerAndRegion = true ∧
    (layoutRun liC6bail).bailed = true ∧
    (layoutRun liC6bail).pendingDimensions = some (layoutNewDim liC6bail) ∧
    (layoutRun liC6bail).isDirty = true ∧
    (layoutRun liC6bail).placements = [] ∧
    uiC6.hasLayerAndRegion = true ∧
    (uwlRun uiC6).bailed = true ∧
    (uwlRun uiC6).pendingDimensions = some (uwlNewDim uiC6) := by
  have h1 := c6_resize_abort_retry.1 liC6bail rfl
  have hth : layoutThicknessDim liC6bail = 40 := by
    have hnd : layoutNewDim liC6bail = ⟨512, 40⟩ := by
      norm_num [layoutNewDim, layoutConstrained, layoutActualSize0,
        layoutNewListLength, layoutNewListThickness, layoutLeftSum, layoutCenterSum,
        layoutRightSum, layoutSpacingScaled, layoutPaddingScaled, layoutNumLists,
        makeIndicesContiguous, List.mergeSort, regionSumScaled, lengthwise, crosswise,
        listMaxOrZero, constrainDim, clampRange, CosmicPanelConfig.get_dimensions,
        CosmicPanelConfig.is_horizontal, CosmicPanelConfig.get_effective_anchor_gap,
        liC6bail, liC6, cfgWingsOne, cfgBase, ratToI32, ratToI32Round, ratTrunc,
        ratRound, i32Sat]
    have hanch : liC6bail.config.anchor = PanelAnchor.Top := rfl
    simp [layoutThicknessDim, hanch, hnd]
  have hlt : layoutListThickness liC6bail = 30 := rfl
  have hb := h1.1.mpr (by rw [hth, hlt]; decide)
  have h2 := h1.2.1 hb
  have hu := c6_resize_abort_retry.2 uiC6 rfl
  have hlens : uwlNewLens uiC6 = (512, 40) := by
    norm_num [uwlNewLens, uwlNewDim, uwlNewDim0, uwlNewListLength,
      uwlNewListThickness, uwlLeftSum, uwlCenterSum, uwlRightSum, uwlNumLists,
      uwlSortWins, List.mergeSort, uwlRegionSum, uwlLengthwise, uwlCrosswise,
      uwlConvSize, listMaxOrZero, constrainDim, clampRange,
      CosmicPanelConfig.get_dimensions, uiC6, cfgWingsOne, cfgBase,
      ratToI32Round, ratRound, i32Sat]
  have hub := hu.1.mpr (by rw [hlens]; left; decide)
  exact ⟨rfl, hb, h2.1, h2.2.1, h2.2.2, rfl, hub, (hu.2 hub).1⟩

/-- C10 witness: a concrete dock config with wings and a center list. -/
theorem c10_dock_plugins_witness :
    cfgDock.expand_to_edges = false ∧
    cfgDock.plugins_left = none ∧
    cfgDock.plugins_right = none ∧
    cfgDock.plugins_center_acc = some ["a", "c", "b"] := by
  have h := c10_dock_plugins cfgDock rfl
  refine ⟨rfl, h.1, h.2.1, ?_⟩
  rw [h.2.2]
  rfl

end CosmicPanel
